import Mathlib

/-! # Deployment-status reconciliation of `jx-gitops helmfile status`

A shallow embedding of `pkg/cmd/helmfile/status/status.go`.

* Go strings are Lean strings; `strings.Contains` is infix containment of the
  character lists (for valid UTF-8 this is the same relation as containment
  of the byte sequences).
* `time.Time` is an integer count of nanoseconds since Go's zero instant, so
  `IsZero` is equality with `0`, `Before` is `<` and `Add` is `+`.
* Provider clients act on an explicit provider state `σ`; every call made on
  a client and every log line is recorded in a `World`.
* Library functions the source calls but does not define (`giturl.ParseGitURL`,
  the title caser, `time.ParseDuration`, the client factory, ...) are fields
  of `Externals`.
-/

namespace Status

/-! ## Strings, time, maps -/

/-- Go `strings.Contains s substr`. -/
def stringsContains (s substr : String) : Bool :=
  decide (substr.data <:+: s.data)

/-- Go `strings.TrimPrefix s p`: `s` without the leading `p`, if it has one. -/
def stringsTrimLeading (s p : String) : String :=
  if p.data <+: s.data then ⟨s.data.drop p.data.length⟩ else s

/-- Go `strings.ToLower`, on the ASCII letters (Go also lower-cases the letters
outside ASCII, none of which becomes a letter of `prod`). -/
def stringsToLower (s : String) : String :=
  ⟨s.data.map Char.toLower⟩

/-- Instants of `time.Time`: nanoseconds since the zero instant. -/
abbrev Time := Int

/-- Go `Time.IsZero`. -/
def Time.IsZero (t : Time) : Bool := decide (t = 0)

/-- Go `t.Before(u)`. -/
def Time.Before (t u : Time) : Bool := decide (t < u)

/-- Go `t.Add(d)`, `d` a duration in nanoseconds. -/
def Time.Add (t : Time) (d : Int) : Time := t + d

/-- A Go `map[string]α`, as an association list; the first entry of a key is
the live one. -/
abbrev GoMap (α : Type) := List (String × α)

/-- Go `v, ok := m[k]`. -/
def GoMap.get? {α : Type} (m : GoMap α) (k : String) : Option α :=
  (m.find? (fun e => e.1 == k)).map Prod.snd

/-- Go `m[k] = v`. -/
def GoMap.set {α : Type} (m : GoMap α) (k : String) (v : α) : GoMap α :=
  (k, v) :: m.filter (fun e => !(e.1 == k))

/-- Go `m[k]` on a `map[string]string`: the empty string for a missing key. -/
def GoMap.getD (m : GoMap String) (k : String) : String :=
  (GoMap.get? m k).getD ""

/-! ## Data model -/

/-- The `releasereport.ReleaseInfo` fields the command reads. -/
structure ReleaseInfo where
  Name : String
  Version : String
  LastDeployed : Option Time
  Sources : List String
  ApplicationURL : String
  LogsURL : String
  deriving DecidableEq, Repr

/-- The `releasereport.NamespaceReleases` fields the command reads. -/
structure NamespaceReleases where
  Namespace : String
  Releases : List ReleaseInfo
  deriving DecidableEq, Repr

/-- The `giturl.GitRepository` fields the command reads. -/
structure GitRepository where
  Host : String
  Organisation : String
  Name : String
  deriving DecidableEq, Repr

/-- The Go type `environment`. -/
structure environment where
  name : String
  url : String
  deriving DecidableEq, Repr

/-- The Go type `scm.Deployment`. -/
structure Deployment where
  ID : String
  Namespace : String
  Name : String
  Link : String
  Ref : String
  Task : String
  Description : String
  OriginalEnvironment : String
  Environment : String
  ProductionEnvironment : Bool
  Payload : String
  deriving DecidableEq, Repr

/-- The Go type `scm.DeploymentInput`. -/
structure DeploymentInput where
  Ref : String
  Task : String
  Environment : String
  Description : String
  RequiredContexts : List String
  AutoMerge : Bool
  TransientEnvironment : Bool
  ProductionEnvironment : Bool
  deriving DecidableEq, Repr

/-- The Go type `scm.DeploymentStatusInput`. -/
structure DeploymentStatusInput where
  State : String
  TargetLink : String
  LogLink : String
  Description : String
  Environment : String
  EnvironmentLink : String
  AutoInactive : Bool
  deriving DecidableEq, Repr

/-- The Go type `scm.DeploymentStatus`. -/
structure DeploymentStatus where
  ID : String
  State : String
  Description : String
  Environment : String
  EnvironmentLink : String
  deriving DecidableEq, Repr

/-- A Go `error`: its text, and whether `scmhelpers.IsScmNotFound` holds of it. -/
structure Error where
  msg : String
  notFound : Bool
  deriving DecidableEq, Repr

/-- Go `errors.Wrapf(err, msg)`. -/
def Wrapf (err : Error) (msg : String) : Error :=
  { msg := msg ++ ": " ++ err.msg, notFound := err.notFound }

/-- One call made on a provider client's deployment service. -/
inductive Call where
  | List (repo : String)
  | Create (repo : String) (input : DeploymentInput)
  | CreateStatus (repo : String) (deploymentID : String) (input : DeploymentStatusInput)
  deriving DecidableEq, Repr

/-- One line written through `log.Logger()`. -/
inductive LogEntry where
  | Warnf (msg : String)
  | Infof (msg : String)
  deriving DecidableEq, Repr

/-- The deployment service of a provider client (`scm.DeploymentService`),
acting on the provider state `σ`. `List` may return deployments together
with an error, as the Go signature allows. -/
structure DeploymentService (σ : Type) where
  Create : String → DeploymentInput → σ → Except Error Deployment × σ
  CreateStatus : String → String → DeploymentStatusInput → σ → Except Error DeploymentStatus × σ
  List : String → σ → (List Deployment × Option Error) × σ

/-- The Go type `scm.Client`: `Deployments` is `none` for a provider without
the deployment capability. -/
structure Client (σ : Type) where
  Deployments : Option (DeploymentService σ)

/-- What a run acts on and leaves behind: the provider state, the provider
calls made so far, the client-factory invocations and the log. -/
structure World (σ : Type) where
  provider : σ
  calls : List Call
  factoryCalls : List (String × String × String)
  logs : List LogEntry

/-- Append a log line. -/
def World.log {σ : Type} (w : World σ) (e : LogEntry) : World σ :=
  { w with logs := w.logs ++ [e] }

/-- Record a provider call and the provider state it leaves. -/
def World.call {σ : Type} (w : World σ) (c : Call) (p : σ) : World σ :=
  { w with provider := p, calls := w.calls ++ [c] }

/-- Go `scm.Join`. -/
def scmJoin (owner name : String) : String := owner ++ "/" ++ name

/-- Go `scm.Split`: owner and name around the first `/`; a string without
`/` is a name with an empty owner. -/
def scmSplit (s : String) : String × String :=
  match s.data.span (fun c => c != '/') with
  | (n, []) => ("", ⟨n⟩)
  | (o, _ :: n) => (⟨o⟩, ⟨n⟩)

/-- The `v1alpha1.Repository` fields the command reads. -/
structure Repository where
  Name : String
  deriving DecidableEq, Repr

/-- The `v1alpha1.RepositoryGroup` fields the command reads. -/
structure RepositoryGroup where
  Owner : String
  Provider : String
  ProviderKind : String
  Repositories : List Repository
  deriving DecidableEq, Repr

/-- The Go type `v1alpha1.SourceConfig`: `Spec.Groups`. -/
structure SourceConfig where
  Groups : List RepositoryGroup
  deriving DecidableEq, Repr

/-- The `jxcore.EnvironmentConfig` fields the command reads. -/
structure EnvironmentConfig where
  Key : String
  Namespace : String
  deriving DecidableEq, Repr

/-- The `jxcore.ClusterConfig` fields the command reads. -/
structure ClusterConfig where
  GitServer : String
  GitKind : String
  EnvironmentGitOwner : String
  deriving DecidableEq, Repr

/-- The `jxcore.RequirementsConfig` fields the command reads (`Requirements.Spec`). -/
structure RequirementsConfig where
  Environments : List EnvironmentConfig
  Cluster : ClusterConfig
  deriving DecidableEq, Repr

/-- Library functions the command calls and does not define. -/
structure Externals (σ : Type) where
  /-- Go `giturl.ParseGitURL`: `none` when it returns an error. -/
  ParseGitURL : String → Option GitRepository
  /-- Go `cases.Title(language.English).String`. -/
  titleCaser : String → String
  /-- Go `giturl.SaasGitKind`: the provider kind of a known host, else `""`. -/
  SaasGitKind : String → String
  /-- Go `scmhelpers.NewScmClient kind server token`. -/
  NewScmClient : String → String → String → Except Error (Client σ)
  /-- Go `time.ParseDuration`, in nanoseconds. -/
  ParseDuration : String → Except Error Int
  /-- Go `requirements.EnvironmentGitURL spec key`. -/
  EnvironmentGitURL : RequirementsConfig → String → String
  /-- Go `sourceconfigs.DefaultValues config group repo`, which fills in the
  group and the repository in place: the two it leaves, or its error. -/
  DefaultValues : SourceConfig → RepositoryGroup → Repository →
    Except Error (RepositoryGroup × Repository)

/-- The Go type `Options`. A nil map is the empty map: it reads the same, and
the source replaces a nil map by an empty one before it writes to it. -/
structure Options (σ : Type) where
  Dir : String
  FailOnError : Bool
  AutoInactive : Bool
  SourceConfig : SourceConfig
  NamespaceReleases : List NamespaceReleases
  Requirements : RequirementsConfig
  TestGitToken : String
  EnvironmentNames : GoMap String
  EnvironmentURLs : GoMap String
  DeployOffset : String
  DeployCutoff : Time
  SCMClients : GoMap (Client σ)

/-! ## The repository matcher (`updateStatus`, lines 246-279) -/

/-- The three variables the loop over `release.Sources` assigns. -/
structure SourceScan where
  repoInSources : Bool
  alternativeRepoInOwner : Option GitRepository
  alternativeRepo : Option GitRepository
  deriving DecidableEq, Repr

/-- The three variables before the loop. -/
def SourceScan.init : SourceScan :=
  { repoInSources := false, alternativeRepoInOwner := none, alternativeRepo := none }

/-- One iteration of the loop over `release.Sources`. -/
def scanSource (parse : String → Option GitRepository) (provider owner fullRepoName : String)
    (a : SourceScan) (source : String) : SourceScan :=
  match parse source with
  | none => a
  | some gitinfo =>
    if stringsContains provider gitinfo.Host then
      if stringsContains source fullRepoName then
        { a with repoInSources := true }
      else if gitinfo.Organisation = owner then
        { a with alternativeRepoInOwner := some gitinfo }
      else
        { a with alternativeRepo := some gitinfo }
    else a

/-- The warnings of the loop over `release.Sources`: one for each source that
does not parse, in order. -/
def sourceWarnings (parse : String → Option GitRepository) (sources : List String) :
    List LogEntry :=
  sources.filterMap fun source =>
    match parse source with
    | none => some (LogEntry.Warnf ("failed to parse git URL " ++ source ++ " from Chart source"))
    | some _ => none

/-- The value of `fullRepoName` after lines 246-279 of `updateStatus`. -/
def resolveFullRepoName (parse : String → Option GitRepository)
    (provider owner repoName : String) (sources : List String) : String :=
  let fullRepoName := scmJoin owner repoName
  if sources.length > 0 then
    let a := sources.foldl (scanSource parse provider owner fullRepoName) SourceScan.init
    if !a.repoInSources then
      let alternativeRepo :=
        match a.alternativeRepoInOwner with
        | some g => some g
        | none => a.alternativeRepo
      match alternativeRepo with
      | some g => scmJoin g.Organisation g.Name
      | none => fullRepoName
    else fullRepoName
  else fullRepoName

/-! ## The reconciler -/

/-- The test of line 351, with `name` the short name of `fullRepoName`. -/
def matchesDeployment (fullRepoName environment : String) (d : Deployment) : Bool :=
  d.Name == (scmSplit fullRepoName).2 && d.Environment == environment

/-- Go `FindExistingDeploymentInEnvironment`, on the client's (non-nil)
deployment service. -/
def FindExistingDeploymentInEnvironment {σ : Type} (svc : DeploymentService σ)
    (fullRepoName environment : String) (w : World σ) :
    Except Error (Option Deployment) × World σ :=
  let r := svc.List fullRepoName w.provider
  let w := w.call (Call.List fullRepoName) r.2
  let deployments := r.1.1
  let found : Except Error (Option Deployment) × World σ :=
    match deployments.find? (matchesDeployment fullRepoName environment) with
    | some d => (.ok (some d), w.log (.Infof ("found existing deployment " ++ d.Link)))
    | none => (.ok none, w)
  match r.1.2 with
  | some err => if !err.notFound then (.error err, w) else found
  | none => found

/-- The input `CreateNewDeployment` builds. -/
def newDeploymentInput (ref environment fullRepoName : String) : DeploymentInput :=
  { Ref := ref
    Task := "deploy"
    Environment := environment
    Description := "release " ++ (scmSplit fullRepoName).2 ++ " for version " ++
      stringsTrimLeading ref "v"
    RequiredContexts := []
    AutoMerge := false
    TransientEnvironment := false
    ProductionEnvironment := stringsContains (stringsToLower environment) "prod" }

/-- Go `CreateNewDeployment`, on the client's (non-nil) deployment service. -/
def CreateNewDeployment {σ : Type} (svc : DeploymentService σ)
    (ref environment fullRepoName : String) (w : World σ) :
    Except Error Deployment × World σ :=
  let deploymentInput := newDeploymentInput ref environment fullRepoName
  let r := svc.Create fullRepoName deploymentInput w.provider
  let w := w.call (Call.Create fullRepoName deploymentInput) r.2
  match r.1 with
  | .error err =>
    (.error (Wrapf err ("failed to create Deployment for repository " ++ fullRepoName ++
      " and ref " ++ ref)), w)
  | .ok deployment =>
    (.ok deployment, w.log (.Infof ("created Deployment for release " ++ fullRepoName ++
      " at " ++ deployment.Link)))

/-- The status input `updateStatus` builds (lines 304-312). -/
def deploymentStatusInput (AutoInactive : Bool) (env : environment) (release : ReleaseInfo) :
    DeploymentStatusInput :=
  { State := "success"
    TargetLink := release.ApplicationURL
    LogLink := release.LogsURL
    Description := "Deployment " ++ stringsTrimLeading release.Version "v"
    Environment := env.name
    EnvironmentLink := env.url
    AutoInactive := AutoInactive }

/-- Lines 304-319 of `updateStatus`: create the status entry on `deployment`. -/
def createStatus {σ : Type} (AutoInactive : Bool) (svc : DeploymentService σ) (env : environment)
    (fullRepoName ref : String) (release : ReleaseInfo) (deployment : Deployment)
    (w : World σ) : Option Error × World σ :=
  let input := deploymentStatusInput AutoInactive env release
  let r := svc.CreateStatus fullRepoName deployment.ID input w.provider
  let w := w.call (Call.CreateStatus fullRepoName deployment.ID input) r.2
  match r.1 with
  | .error err =>
    (some (Wrapf err ("failed to create DeploymentStatus for repository " ++ fullRepoName ++
      " and ref " ++ ref)), w)
  | .ok status =>
    (none, w.log (.Infof ("created DeploymentStatus for repository " ++ fullRepoName ++
      " ref " ++ ref ++ " at " ++ status.ID ++ " with Logs URL " ++ release.LogsURL ++
      " and Target URL " ++ release.ApplicationURL)))

/-- Lines 280-319 of `updateStatus`: what it does once `fullRepoName` is
resolved. -/
def reconcile {σ : Type} (AutoInactive : Bool) (scmClient : Client σ) (env : environment)
    (provider fullRepoName : String) (release : ReleaseInfo) (w : World σ) :
    Option Error × World σ :=
  match scmClient.Deployments with
  | none =>
    (none, w.log (.Warnf ("cannot update deployment status of release " ++ fullRepoName ++
      " as the git server " ++ provider ++ " does not support Deployments")))
  | some svc =>
    match FindExistingDeploymentInEnvironment svc fullRepoName env.name w with
    | (.error err, w) => (some err, w)
    | (.ok found, w) =>
      let ref := "v" ++ release.Version
      match found with
      | none =>
        match CreateNewDeployment svc ref env.name fullRepoName w with
        | (.error err, w) => (some err, w)
        | (.ok deployment, w) =>
          createStatus AutoInactive svc env fullRepoName ref release deployment w
      | some deployment =>
        if ref = deployment.Ref then
          (none, w.log (.Infof ("existing deployment for " ++ fullRepoName ++
            " is the same version as release (" ++ ref ++ "). Skipping deployment")))
        else
          createStatus AutoInactive svc env fullRepoName ref release deployment w

/-- Go `updateStatus`: the error it returns (`none` for nil) and the world it
leaves. Of the receiver it reads `AutoInactive` only; `parse` is
`giturl.ParseGitURL`. -/
def updateStatus {σ : Type} (parse : String → Option GitRepository) (AutoInactive : Bool)
    (scmClient : Client σ) (env : environment) (provider owner repoName : String)
    (release : ReleaseInfo) (w : World σ) : Option Error × World σ :=
  if release.Version = "" then
    (none, w.log (.Warnf ("missing version for release " ++ repoName ++ " in environment " ++
      env.name)))
  else
    reconcile AutoInactive scmClient env provider
      (resolveFullRepoName parse provider owner repoName release.Sources) release
      { w with logs := w.logs ++ sourceWarnings parse release.Sources }

/-! ## The driver -/

/-- Go `getEnvForNamespace`. -/
def getEnvForNamespace {σ : Type} (titleCaser : String → String) (o : Options σ)
    (ns : String) : environment :=
  let name := o.EnvironmentNames.getD ns
  let url := o.EnvironmentURLs.getD ns
  { name := if name = "" then titleCaser (stringsTrimLeading ns "jx-") else name
    url := if url = "" then o.EnvironmentURLs.getD "dev" else url }

/-- Go `CreateSCMClientForServer`. -/
def CreateSCMClientForServer {σ : Type} (x : Externals σ) (owner server gitKind : String)
    (s : Options σ × World σ) : Except Error (Client σ) × (Options σ × World σ) :=
  match s.1.SCMClients.get? server with
  | some scmClient => (.ok scmClient, s)
  | none =>
    if server = "" then
      (.error { msg := "no provider defined for owner " ++ owner, notFound := false }, s)
    else
      let gitKind := if gitKind = "" then x.SaasGitKind server else gitKind
      if gitKind = "" then
        (.error { msg := "no git provider kind for owner " ++ owner, notFound := false }, s)
      else
        let w := { s.2 with
          factoryCalls := s.2.factoryCalls ++ [(gitKind, server, s.1.TestGitToken)] }
        match x.NewScmClient gitKind server s.1.TestGitToken with
        | .error err => (.error err, (s.1, w))
        | .ok scmClient =>
          (.ok scmClient, ({ s.1 with SCMClients := s.1.SCMClients.set server scmClient }, w))

/-- The condition of lines 149 and 215 under which the loops `continue`
without reconciling the release. -/
def skipRelease (DeployCutoff : Time) (release : ReleaseInfo) : Bool :=
  DeployCutoff.IsZero ||
    match release.LastDeployed with
    | none => true
    | some t => DeployCutoff.Before t

/-- A Go `for _, a := range xs` whose body either continues or makes the
enclosing function return an error. -/
def rangeLoop {α S : Type} (xs : List α) (body : α → S → Option Error × S) (s : S) :
    Option Error × S :=
  match xs with
  | [] => (none, s)
  | a :: rest =>
    match body a s with
    | (some err, s) => (some err, s)
    | (none, s) => rangeLoop rest body s

/-- The body of the inner loop of `updateStatuses` (lines 211-229). -/
def updateStatusesRelease {σ : Type} (x : Externals σ) (group : RepositoryGroup)
    (repo : Repository) (ns : String) (release : ReleaseInfo) (s : Options σ × World σ) :
    Option Error × (Options σ × World σ) :=
  if release.Name != repo.Name then (none, s)
  else if skipRelease s.1.DeployCutoff release then (none, s)
  else
    let env := getEnvForNamespace x.titleCaser s.1 ns
    match CreateSCMClientForServer x group.Owner group.Provider group.ProviderKind s with
    | (.error err, s) =>
      (some (Wrapf err ("failed to create scm client for repository " ++ group.Owner ++ "/" ++
        repo.Name)), s)
    | (.ok scmClient, (o, w)) =>
      match updateStatus x.ParseGitURL o.AutoInactive scmClient env group.Provider group.Owner
          repo.Name release w with
      | (some err, w) => (some err, (o, w))
      | (none, w) => (none, (o, w))

/-- Go `updateStatuses`. -/
def updateStatuses {σ : Type} (x : Externals σ) (group : RepositoryGroup) (repo : Repository)
    (s : Options σ × World σ) : Option Error × (Options σ × World σ) :=
  rangeLoop s.1.NamespaceReleases
    (fun nsr => rangeLoop nsr.Releases (updateStatusesRelease x group repo nsr.Namespace)) s

/-- The body of the inner loop of `Run` when no group is declared (lines 149-166). -/
def runRelease {σ : Type} (x : Externals σ) (c : ClusterConfig) (gitServer ns : String)
    (release : ReleaseInfo) (s : Options σ × World σ) :
    Option Error × (Options σ × World σ) :=
  if skipRelease s.1.DeployCutoff release then (none, s)
  else
    let env := getEnvForNamespace x.titleCaser s.1 ns
    match CreateSCMClientForServer x c.EnvironmentGitOwner gitServer c.GitKind s with
    | (.error err, s) =>
      (some (Wrapf err ("failed to create scm client for owner " ++ c.EnvironmentGitOwner)), s)
    | (.ok scmClient, (o, w)) =>
      match updateStatus x.ParseGitURL o.AutoInactive scmClient env gitServer
          c.EnvironmentGitOwner release.Name release w with
      | (some err, w) =>
        if o.FailOnError then
          (some (Wrapf err ("failed to update status for repository " ++
            c.EnvironmentGitOwner ++ "/" ++ release.Name)), (o, w))
        else
          (none, (o, w.log (.Warnf ("failed to update status for repository " ++
            c.EnvironmentGitOwner ++ "/" ++ release.Name ++ " : " ++ err.msg))))
      | (none, w) => (none, (o, w))

/-- Go `stringhelpers.FirstNotEmptyString`, of two strings. -/
def FirstNotEmptyString (a b : String) : String :=
  if a ≠ "" then a else if b ≠ "" then b else ""

/-- Go `giturl.GitHubURL`. -/
def GitHubURL : String := "https://github.com"

/-- Lines 141-168 of `Run`: the loops when the source config declares no group. -/
def runNoGroups {σ : Type} (x : Externals σ) (s : Options σ × World σ) :
    Option Error × (Options σ × World σ) :=
  let s : Options σ × World σ :=
    (s.1, s.2.log (.Warnf ("no source config found in dir " ++ s.1.Dir ++
      ". Will assume all repos are in the current organisation as gitops repo")))
  let c := s.1.Requirements.Cluster
  let gitServer := FirstNotEmptyString c.GitServer GitHubURL
  rangeLoop s.1.NamespaceReleases
    (fun nsr => rangeLoop nsr.Releases (runRelease x c gitServer nsr.Namespace)) s

/-- The body of the loop over `group.Repositories` in `Run` (lines 173-185);
the group that `DefaultValues` filled in is carried to the next repository. -/
def runRepository {σ : Type} (x : Externals σ) (repo : Repository)
    (s : RepositoryGroup × Options σ × World σ) :
    Option Error × (RepositoryGroup × Options σ × World σ) :=
  match x.DefaultValues s.2.1.SourceConfig s.1 repo with
  | .error err => (some (Wrapf err "failed to default SourceConfig"), s)
  | .ok (group, repo) =>
    match updateStatuses x group repo s.2 with
    | (some err, (o, w)) =>
      if o.FailOnError then
        (some (Wrapf err ("failed to update status for repository " ++ group.Owner ++ "/" ++
          repo.Name)), (group, o, w))
      else
        (none, (group, o, w.log (.Warnf ("failed to update status for repository " ++
          group.Owner ++ "/" ++ repo.Name ++ " : " ++ err.msg))))
    | (none, s) => (none, (group, s))

/-- Lines 170-187 of `Run`: the loops over the declared groups. -/
def runGroups {σ : Type} (x : Externals σ) (s : Options σ × World σ) :
    Option Error × (Options σ × World σ) :=
  rangeLoop s.1.SourceConfig.Groups
    (fun group s =>
      match rangeLoop group.Repositories (runRepository x) (group, s) with
      | (err, (_, s)) => (err, s)) s

/-- One iteration of the loop over `Requirements.Spec.Environments` (lines 113-127). -/
def addEnvironment {σ : Type} (x : Externals σ) (o : Options σ) (e : EnvironmentConfig) :
    Options σ :=
  let ns := if e.Namespace = "" then (if e.Key ≠ "dev" then "jx-" ++ e.Key else "jx")
    else e.Namespace
  let o := { o with EnvironmentNames := o.EnvironmentNames.set ns (x.titleCaser e.Key) }
  let envURL := x.EnvironmentGitURL o.Requirements e.Key
  let o := { o with EnvironmentURLs := o.EnvironmentURLs.set ns envURL }
  if e.Key = "dev" then { o with EnvironmentURLs := o.EnvironmentURLs.set "dev" envURL } else o

/-- Lines 134-140 of `Run`: the deploy cutoff from the `deploy-offset` flag at
the instant `now` that `time.Now()` returns; `Except.error` is the error `Run`
returns. -/
def setDeployCutoff {σ : Type} (x : Externals σ) (now : Time) (o : Options σ) :
    Except Error (Options σ) :=
  if o.DeployOffset ≠ "" then
    match x.ParseDuration o.DeployOffset with
    | .error err => .error (Wrapf err ("failed to parse time offset " ++ o.DeployOffset))
    | .ok dur => .ok { o with DeployCutoff := now.Add dur }
  else .ok o

/-- What `Run` reads from outside: whether the report file exists, the three
files it loads, and the clock. -/
structure RunInputs where
  reportExists : Except Error Bool
  report : Except Error (List NamespaceReleases)
  requirements : Except Error RequirementsConfig
  sourceConfig : Except Error SourceConfig
  now : Time

/-- Go `Run`. -/
def Run {σ : Type} (x : Externals σ) (inp : RunInputs) (s : Options σ × World σ) :
    Option Error × (Options σ × World σ) :=
  let path := s.1.Dir ++ "/docs/releases.yaml"
  match inp.reportExists with
  | .error err => (some (Wrapf err ("failed to check file exists " ++ path)), s)
  | .ok false =>
    (none, (s.1, s.2.log (.Infof ("no report at file " ++ path ++
      " so cannot report deployment status"))))
  | .ok true =>
    match inp.report with
    | .error err => (some (Wrapf err ("failed to load " ++ path)), s)
    | .ok releases =>
      let o := { s.1 with NamespaceReleases := releases }
      match inp.requirements with
      | .error err => (some (Wrapf err ("failed to load requirements in dir " ++ o.Dir)), (o, s.2))
      | .ok req =>
        let o := { o with Requirements := req }
        let o := req.Environments.foldl (addEnvironment x) o
        match inp.sourceConfig with
        | .error err =>
          (some (Wrapf err ("failed to load source config from dir " ++ o.Dir)), (o, s.2))
        | .ok cfg =>
          let o := { o with SourceConfig := cfg }
          match setDeployCutoff x inp.now o with
          | .error err => (some err, (o, s.2))
          | .ok o =>
            if o.SourceConfig.Groups.length = 0 then runNoGroups x (o, s.2)
            else runGroups x (o, s.2)

/-! ## The fallback of the repository matcher, in the specification's words -/

/-- The name the specification gives for a sources list without a confirming
source: among the parsable sources whose host the provider string contains,
the last one of the group owner, else the last one of another organisation,
else the assumed name. -/
def fallbackRepoName (parse : String → Option GitRepository)
    (provider owner repoName : String) (sources : List String) : String :=
  let considered := (sources.filterMap parse).filter
    (fun g => stringsContains provider g.Host)
  match (considered.filter (fun g => decide (g.Organisation = owner))).getLast? with
  | some g => scmJoin g.Organisation g.Name
  | none =>
    match (considered.filter (fun g => !decide (g.Organisation = owner))).getLast? with
    | some g => scmJoin g.Organisation g.Name
    | none => scmJoin owner repoName

/-- Whether the loop over the sources looks at `source` at all: it parses and
the provider string contains its host. -/
def consideredSource (parse : String → Option GitRepository) (provider source : String) :
    Bool :=
  match parse source with
  | none => false
  | some gitinfo => stringsContains provider gitinfo.Host

/-! ## Further notions the properties are stated with -/

/-- The namespace under which the loop of lines 112-128 records an
environment: its own, or by default `jx` for the key `dev` and `jx-` followed
by the key otherwise (lines 114-120). -/
def envNamespace (e : EnvironmentConfig) : String :=
  if e.Namespace = "" then (if e.Key ≠ "dev" then "jx-" ++ e.Key else "jx") else e.Namespace

/-- The options and the world after a sequence of calls of
`CreateSCMClientForServer`, each an (owner, server, git kind). -/
def afterClientRequests {σ : Type} (x : Externals σ) (requests : List (String × String × String))
    (s : Options σ × World σ) : Options σ × World σ :=
  requests.foldl (fun s r => (CreateSCMClientForServer x r.1 r.2.1 r.2.2 s).2) s

/-! ## Concrete collaborators, for evaluating the model -/

/-- Split a character list at every `/`. -/
def splitSlash : List Char → List (List Char)
  | [] => [[]]
  | c :: cs =>
    match splitSlash cs with
    | [] => [[c]]
    | p :: ps => if c = '/' then [] :: p :: ps else (c :: p) :: ps

/-- A parser for URLs of the shape `https://host/organisation/name`, on which
`giturl.ParseGitURL` returns these three fields; any other text is an error. -/
def parseHTTPSGitURL (source : String) : Option GitRepository :=
  if "https://".data <+: source.data then
    match splitSlash (source.data.drop 8) with
    | [host, org, name] =>
      if host = [] ∨ org = [] ∨ name = [] then none
      else some { Host := ⟨host⟩, Organisation := ⟨org⟩, Name := ⟨name⟩ }
    | _ => none
  else none

/-- The state of an in-memory provider: the deployments of each repository
and the statuses of each `repository/deploymentID`. -/
structure FakeData where
  Deployments : GoMap (List Deployment)
  DeploymentStatus : GoMap (List DeploymentStatus)
  deriving DecidableEq, Repr

/-- An in-memory deployment service: `List` reads the repository's
deployments, `Create` appends a deployment that carries the given ref and
environment and the repository's short name, `CreateStatus` appends a status. -/
def fakeDeployments : DeploymentService FakeData where
  List := fun repo p => (((p.Deployments.get? repo).getD [], none), p)
  Create := fun repo input p =>
    let deployments := (p.Deployments.get? repo).getD []
    let d : Deployment :=
      { ID := "deployment-" ++ toString (deployments.length + 1)
        Namespace := (scmSplit repo).1
        Name := (scmSplit repo).2
        Link := "https://fake.com/" ++ repo ++ "/deployments/" ++
          toString (deployments.length + 1)
        Ref := input.Ref
        Task := input.Task
        Description := input.Description
        OriginalEnvironment := input.Environment
        Environment := input.Environment
        ProductionEnvironment := input.ProductionEnvironment
        Payload := "" }
    (.ok d, { p with Deployments := p.Deployments.set repo (deployments ++ [d]) })
  CreateStatus := fun repo deploymentID input p =>
    let key := scmJoin repo deploymentID
    let statuses := (p.DeploymentStatus.get? key).getD []
    let st : DeploymentStatus :=
      { ID := "status-" ++ toString (statuses.length + 1)
        State := input.State
        Description := input.Description
        Environment := input.Environment
        EnvironmentLink := input.EnvironmentLink }
    (.ok st, { p with DeploymentStatus := p.DeploymentStatus.set key (statuses ++ [st]) })

/-- A client with the in-memory deployment service. -/
def fakeClient : Client FakeData := { Deployments := some fakeDeployments }

/-- A client of a provider without the deployment capability. -/
def bareClient : Client FakeData := { Deployments := none }

/-- Upper-case the first character: the title caser on a one-word ASCII name. -/
def capitalise (s : String) : String :=
  match s.data with
  | [] => ""
  | c :: cs => ⟨c.toUpper :: cs⟩

/-- Concrete library functions: the parser above, a client factory that hands
out the in-memory client, and `time.ParseDuration` on `"2h"`. -/
def sampleExternals : Externals FakeData where
  ParseGitURL := parseHTTPSGitURL
  titleCaser := capitalise
  SaasGitKind := fun server => if stringsContains server "github.com" then "github" else ""
  NewScmClient := fun _ _ _ => .ok fakeClient
  ParseDuration := fun text =>
    if text = "2h" then .ok 7200000000000
    else .error { msg := "time: invalid duration " ++ text, notFound := false }
  EnvironmentGitURL := fun _ _ => "https://github.com/jstrachan/jx-demo-gke2-dev.git"
  DefaultValues := fun _ group repo => .ok (group, repo)

/-- A world in which nothing has happened yet. -/
def freshWorld (p : FakeData) : World FakeData :=
  { provider := p, calls := [], factoryCalls := [], logs := [] }

/-- A release of `fakeRepo` at version 0.0.2. -/
def sampleRelease : ReleaseInfo :=
  { Name := "fakeRepo"
    Version := "0.0.2"
    LastDeployed := some 50
    Sources := []
    ApplicationURL := "https://fakerepo.example.com"
    LogsURL := "https://logs.example.com" }

/-- The production environment of the test requirements. -/
def sampleEnv : environment :=
  { name := "Production", url := "https://github.com/jstrachan/jx-demo-gke2-dev.git" }

/-- A deployment of `fakeRepo` to production at the given ref. -/
def sampleDeployment (ref : String) : Deployment :=
  { ID := "deployment-1"
    Namespace := "fakeOwner"
    Name := "fakeRepo"
    Link := ""
    Ref := ref
    Task := "deploy"
    Description := "release nodey560 for version 0.0.1"
    OriginalEnvironment := "Production"
    Environment := "Production"
    ProductionEnvironment := true
    Payload := "" }

/-- A provider that holds the given deployments of `fakeOwner/fakeRepo`. -/
def sampleData (ds : List Deployment) : FakeData :=
  { Deployments := [("fakeOwner/fakeRepo", ds)], DeploymentStatus := [] }

/-- Options of a run over one namespace with one release. -/
def sampleOptions (cutoff : Time) (release : ReleaseInfo) : Options FakeData :=
  { Dir := "testdata"
    FailOnError := false
    AutoInactive := true
    SourceConfig := { Groups := [] }
    NamespaceReleases := [{ Namespace := "jx-production", Releases := [release] }]
    Requirements :=
      { Environments := []
        Cluster := { GitServer := "https://fake.com", GitKind := "fake",
                     EnvironmentGitOwner := "fakeOwner" } }
    TestGitToken := "faketoken"
    EnvironmentNames := [("jx-production", "Production")]
    EnvironmentURLs := [("dev", "https://github.com/jstrachan/jx-demo-gke2-dev.git")]
    DeployOffset := ""
    DeployCutoff := cutoff
    SCMClients := [("https://fake.com", fakeClient)] }

/-- The repository group of the test source config. -/
def sampleGroup : RepositoryGroup :=
  { Owner := "fakeOwner", Provider := "https://fake.com", ProviderKind := "fake",
    Repositories := [{ Name := "fakeRepo" }] }

/-- What `Run` reads in the test: a report with one release, requirements
without environments, a source config without groups. -/
def sampleInputs (release : ReleaseInfo) : RunInputs :=
  { reportExists := .ok true
    report := .ok [{ Namespace := "jx-production", Releases := [release] }]
    requirements := .ok
      { Environments := []
        Cluster := { GitServer := "https://fake.com", GitKind := "fake",
                     EnvironmentGitOwner := "fakeOwner" } }
    sourceConfig := .ok { Groups := [] }
    now := 1000000000000000 }

/-- Requirements of a development cluster with a staging environment that has
no repository of its own: only `dev` has a git URL. -/
def sampleRequirements : RequirementsConfig :=
  { Environments := [{ Key := "dev", Namespace := "" },
                     { Key := "staging", Namespace := "jx-staging" }]
    Cluster := { GitServer := "https://fake.com", GitKind := "fake",
                 EnvironmentGitOwner := "fakeOwner" } }

/-- Requirements in which two environments share the namespace `apps`. -/
def sharedNamespaceRequirements : RequirementsConfig :=
  { Environments := [{ Key := "staging", Namespace := "apps" },
                     { Key := "production", Namespace := "apps" }]
    Cluster := { GitServer := "https://fake.com", GitKind := "fake",
                 EnvironmentGitOwner := "fakeOwner" } }

/-- The library functions of `sampleExternals`, with an `EnvironmentGitURL` that
knows a repository for the `dev` environment only. -/
def devExternals : Externals FakeData :=
  { sampleExternals with
    EnvironmentGitURL := fun _ key =>
      if key = "dev" then "https://github.com/jstrachan/jx-demo-gke2-dev.git" else "" }

/-- Options before `Run` has read anything, for the given requirements. -/
def emptyOptions (req : RequirementsConfig) : Options FakeData :=
  { Dir := "testdata"
    FailOnError := false
    AutoInactive := true
    SourceConfig := { Groups := [] }
    NamespaceReleases := []
    Requirements := req
    TestGitToken := "faketoken"
    EnvironmentNames := []
    EnvironmentURLs := []
    DeployOffset := ""
    DeployCutoff := 100
    SCMClients := [] }

/-- An in-memory deployment service whose `Create` fails for one environment. -/
def flakyDeployments (badEnvironment : String) : DeploymentService FakeData :=
  { fakeDeployments with
    Create := fun repo input p =>
      if input.Environment = badEnvironment then
        (.error { msg := "provider unavailable", notFound := false }, p)
      else fakeDeployments.Create repo input p }

/-- Options of a run, with fail-on-error disabled, over the namespaces
`jx-staging` and `jx-production`, each holding the release, on a provider
that cannot create deployments for `Staging`. -/
def twoNamespaceOptions (groups : List RepositoryGroup) (release : ReleaseInfo) :
    Options FakeData :=
  { sampleOptions 100 release with
    SourceConfig := { Groups := groups }
    NamespaceReleases := [{ Namespace := "jx-staging", Releases := [release] },
                          { Namespace := "jx-production", Releases := [release] }]
    SCMClients := [("https://fake.com", { Deployments := some (flakyDeployments "Staging") })] }

/-- A cluster on a git server whose provider kind is neither configured nor
known to `SaasGitKind`. -/
def unknownHostCluster : ClusterConfig :=
  { GitServer := "https://git.example.org", GitKind := "", EnvironmentGitOwner := "fakeOwner" }

/-- A repository group on that git server. -/
def unknownHostGroup : RepositoryGroup :=
  { Owner := "fakeOwner", Provider := "https://git.example.org", ProviderKind := "",
    Repositories := [{ Name := "fakeRepo" }] }

/-- Options of a run, with fail-on-error disabled and no client registered,
against that git server. -/
def unknownHostOptions (groups : List RepositoryGroup) : Options FakeData :=
  { sampleOptions 100 sampleRelease with
    SourceConfig := { Groups := groups }
    Requirements := { Environments := [], Cluster := unknownHostCluster }
    SCMClients := [] }

/-- What `Run` reads for a run against that git server: the one release, and
a source config with the given groups. -/
def unknownHostInputs (groups : List RepositoryGroup) : RunInputs :=
  { reportExists := .ok true
    report := .ok [{ Namespace := "jx-production", Releases := [sampleRelease] }]
    requirements := .ok { Environments := [], Cluster := unknownHostCluster }
    sourceConfig := .ok { Groups := groups }
    now := 1000000000000000 }

/-- The production environment as `getEnvForNamespace` resolves it from the
sample options. -/
def productionEnv : environment :=
  { name := "Production", url := "https://github.com/jstrachan/jx-demo-gke2-dev.git" }

/-- The world after reconciling the sample release with production once more. -/
def reconcileAgain (w : World FakeData) : World FakeData :=
  (updateStatus parseHTTPSGitURL true fakeClient productionEnv "https://fake.com" "fakeOwner"
    "fakeRepo" sampleRelease w).2

/-! ## Evaluations -/

example : stringsContains "https://github.com" "hub.com" = true := by decide
example : stringsContains "https://github.com" "gitlab.com" = false := by decide
example : stringsTrimLeading "v0.0.2" "v" = "0.0.2" := by decide
example : "v" ++ "0.0.2" = "v0.0.2" := by decide
example : stringsToLower "Production" = "production" := by decide
example : scmSplit "fakeOwner/fakeRepo" = ("fakeOwner", "fakeRepo") := by decide
example : scmSplit (scmJoin "a" "b/c") = ("a", "b/c") := by decide
example : scmSplit "solo" = ("", "solo") := by decide

example : parseHTTPSGitURL "https://hub.com/evil/repo" =
    some { Host := "hub.com", Organisation := "evil", Name := "repo" } := by decide
example : parseHTTPSGitURL "not a url" = none := by decide
example : (updateStatus parseHTTPSGitURL true fakeClient sampleEnv "https://fake.com" "fakeOwner"
    "fakeRepo" sampleRelease (freshWorld (sampleData []))).2.calls.length = 3 := by decide
example : (runNoGroups sampleExternals
    (sampleOptions 100 sampleRelease, freshWorld (sampleData []))).2.2.calls.length = 3 := by
  decide

/-! ## The repository matcher -/

theorem scanSource_keeps_confirmed (parse : String → Option GitRepository)
    (provider owner full : String) (a : SourceScan) (source : String)
    (h : a.repoInSources = true) :
    (scanSource parse provider owner full a source).repoInSources = true := by
  unfold scanSource
  split
  · exact h
  · split_ifs <;> simp [h]

theorem foldl_scan_keeps_confirmed (parse : String → Option GitRepository)
    (provider owner full : String) (sources : List String) (a : SourceScan)
    (h : a.repoInSources = true) :
    (sources.foldl (scanSource parse provider owner full) a).repoInSources = true := by
  induction sources generalizing a with
  | nil => exact h
  | cons s rest ih =>
    exact ih _ (scanSource_keeps_confirmed parse provider owner full a s h)

theorem foldl_scan_confirms (parse : String → Option GitRepository)
    (provider owner full : String) (sources : List String) (a : SourceScan)
    (h : ∃ s ∈ sources, ∃ g, parse s = some g ∧ stringsContains provider g.Host = true ∧
      stringsContains s full = true) :
    (sources.foldl (scanSource parse provider owner full) a).repoInSources = true := by
  induction sources generalizing a with
  | nil => simp at h
  | cons s rest ih =>
    obtain ⟨s', hmem, g, hp, hh, hc⟩ := h
    rcases List.mem_cons.mp hmem with rfl | hrest
    · rw [List.foldl_cons]
      apply foldl_scan_keeps_confirmed
      simp [scanSource, hp, hh, hc]
    · exact ih _ ⟨s', hrest, g, hp, hh, hc⟩

/-- The scan state after a sources list without a confirming source. -/
theorem foldl_scan_unconfirmed (parse : String → Option GitRepository)
    (provider owner full : String) (sources : List String)
    (h : ∀ s ∈ sources, ∀ g, parse s = some g → stringsContains provider g.Host = true →
      stringsContains s full = false) :
    sources.foldl (scanSource parse provider owner full) SourceScan.init =
      { repoInSources := false
        alternativeRepoInOwner :=
          (((sources.filterMap parse).filter (fun g => stringsContains provider g.Host)).filter
            (fun g => decide (g.Organisation = owner))).getLast?
        alternativeRepo :=
          (((sources.filterMap parse).filter (fun g => stringsContains provider g.Host)).filter
            (fun g => !decide (g.Organisation = owner))).getLast? } := by
  induction sources using List.reverseRecOn with
  | nil => rfl
  | append_singleton l s ih =>
    have hl : ∀ s ∈ l, ∀ g, parse s = some g → stringsContains provider g.Host = true →
        stringsContains s full = false :=
      fun s' hs' => h s' (List.mem_append_left _ hs')
    rw [List.foldl_append, ih hl]
    simp only [List.foldl_cons, List.foldl_nil, List.filterMap_append, List.filter_append,
      List.getLast?_append]
    cases hp : parse s with
    | none => simp [scanSource, hp]
    | some g =>
      by_cases hh : stringsContains provider g.Host = true
      · have hc := h s (by simp) g hp hh
        by_cases ho : g.Organisation = owner
        · simp [scanSource, hp, hh, hc, ho]
        · simp [scanSource, hp, hh, hc, ho]
      · simp [scanSource, hp, hh]

/-- Dropping the sources the loop does not look at leaves the scan as it is. -/
theorem foldl_scan_filter_considered (parse : String → Option GitRepository)
    (provider owner full : String) (sources : List String) (a : SourceScan) :
    (sources.filter (consideredSource parse provider)).foldl
        (scanSource parse provider owner full) a =
      sources.foldl (scanSource parse provider owner full) a := by
  induction sources generalizing a with
  | nil => rfl
  | cons s rest ih =>
    by_cases hc : consideredSource parse provider s = true
    · simp [List.filter_cons, hc, ih]
    · have hskip : scanSource parse provider owner full a s = a := by
        unfold consideredSource at hc
        unfold scanSource
        cases hp : parse s with
        | none => rfl
        | some g => simp [hp] at hc; simp [hc]
      simp [List.filter_cons, hc, ih, hskip]

/-- Every alternative the scan holds comes from a source it looked at. -/
theorem foldl_scan_alternatives (parse : String → Option GitRepository)
    (provider owner full : String) (sources : List String) (g : GitRepository)
    (h : (sources.foldl (scanSource parse provider owner full)
            SourceScan.init).alternativeRepoInOwner = some g ∨
         (sources.foldl (scanSource parse provider owner full)
            SourceScan.init).alternativeRepo = some g) :
    ∃ s ∈ sources, parse s = some g ∧ stringsContains provider g.Host = true := by
  induction sources using List.reverseRecOn with
  | nil => simp [SourceScan.init] at h
  | append_singleton l s ih =>
    rw [List.foldl_append] at h
    simp only [List.foldl_cons, List.foldl_nil] at h
    have hold : ∀ s' ∈ l, s' ∈ l ++ [s] := fun s' hs' => List.mem_append_left _ hs'
    have keep : ((l.foldl (scanSource parse provider owner full)
            SourceScan.init).alternativeRepoInOwner = some g ∨
         (l.foldl (scanSource parse provider owner full)
            SourceScan.init).alternativeRepo = some g) →
        ∃ s' ∈ l ++ [s], parse s' = some g ∧ stringsContains provider g.Host = true := by
      intro h'
      obtain ⟨s', hs', hp', hh'⟩ := ih h'
      exact ⟨s', hold s' hs', hp', hh'⟩
    unfold scanSource at h
    cases hp : parse s with
    | none =>
      rw [hp] at h
      exact keep h
    | some g' =>
      rw [hp] at h
      by_cases hh : stringsContains provider g'.Host = true
      · by_cases hc : stringsContains s full = true
        · simp only [hh, hc, if_true] at h
          exact keep h
        · by_cases ho : g'.Organisation = owner
          · simp only [hh, hc, ho, if_true] at h
            rcases h with h | h
            · simp only [Bool.false_eq_true, if_false, Option.some.injEq] at h
              subst h
              exact ⟨s, by simp, hp, hh⟩
            · exact keep (Or.inr (by simpa using h))
          · simp only [hh, hc, ho, if_true] at h
            rcases h with h | h
            · exact keep (Or.inl (by simpa using h))
            · simp only [Bool.false_eq_true, if_false, Option.some.injEq] at h
              subst h
              exact ⟨s, by simp, hp, hh⟩
      · simp only [hh] at h
        exact keep (by simpa using h)

/-! ## The reconciler -/

@[simp] theorem World.log_provider {σ : Type} (w : World σ) (e : LogEntry) :
    (w.log e).provider = w.provider := rfl

@[simp] theorem World.log_calls {σ : Type} (w : World σ) (e : LogEntry) :
    (w.log e).calls = w.calls := rfl

@[simp] theorem World.call_provider {σ : Type} (w : World σ) (c : Call) (p : σ) :
    (w.call c p).provider = p := rfl

@[simp] theorem World.call_calls {σ : Type} (w : World σ) (c : Call) (p : σ) :
    (w.call c p).calls = w.calls ++ [c] := rfl

/-- The result of `FindExistingDeploymentInEnvironment`, from what `List`
returned. -/
theorem find_result {σ : Type} (svc : DeploymentService σ) (full environment : String)
    (w : World σ) :
    (FindExistingDeploymentInEnvironment svc full environment w).1 =
      (match (svc.List full w.provider).1.2 with
        | some err =>
          if err.notFound then
            .ok ((svc.List full w.provider).1.1.find? (matchesDeployment full environment))
          else .error err
        | none =>
          .ok ((svc.List full w.provider).1.1.find? (matchesDeployment full environment))) := by
  unfold FindExistingDeploymentInEnvironment
  simp only []
  cases (svc.List full w.provider).1.2 with
  | none => cases List.find? (matchesDeployment full environment) _ <;> rfl
  | some err =>
    cases hn : err.notFound <;>
      cases List.find? (matchesDeployment full environment) _ <;> simp [hn]

/-- The one call `FindExistingDeploymentInEnvironment` makes. -/
theorem find_effects {σ : Type} (svc : DeploymentService σ) (full environment : String)
    (w : World σ) :
    (FindExistingDeploymentInEnvironment svc full environment w).2.provider =
        (svc.List full w.provider).2 ∧
      (FindExistingDeploymentInEnvironment svc full environment w).2.calls =
        w.calls ++ [Call.List full] := by
  unfold FindExistingDeploymentInEnvironment
  simp only []
  cases (svc.List full w.provider).1.2 with
  | none => cases List.find? _ _ <;> simp
  | some err => cases hn : err.notFound <;> cases List.find? _ _ <;> simp [hn]

/-- The result of `CreateNewDeployment` and the one call it makes. -/
theorem create_effects {σ : Type} (svc : DeploymentService σ) (ref environment full : String)
    (w : World σ) :
    (CreateNewDeployment svc ref environment full w).2.provider =
        (svc.Create full (newDeploymentInput ref environment full) w.provider).2 ∧
      (CreateNewDeployment svc ref environment full w).2.calls =
        w.calls ++ [Call.Create full (newDeploymentInput ref environment full)] ∧
      ((CreateNewDeployment svc ref environment full w).1.toOption =
        (svc.Create full (newDeploymentInput ref environment full) w.provider).1.toOption) := by
  unfold CreateNewDeployment
  simp only []
  cases (svc.Create full (newDeploymentInput ref environment full) w.provider).1 <;>
    simp [Except.toOption]

/-- The result of the status step and the one call it makes. -/
theorem createStatus_effects {σ : Type} (AutoInactive : Bool) (svc : DeploymentService σ)
    (env : environment) (full ref : String) (release : ReleaseInfo) (d : Deployment)
    (w : World σ) :
    (createStatus AutoInactive svc env full ref release d w).2.provider =
        (svc.CreateStatus full d.ID (deploymentStatusInput AutoInactive env release)
          w.provider).2 ∧
      (createStatus AutoInactive svc env full ref release d w).2.calls =
        w.calls ++ [Call.CreateStatus full d.ID (deploymentStatusInput AutoInactive env release)] ∧
      ((createStatus AutoInactive svc env full ref release d w).1 = none ↔
        ((svc.CreateStatus full d.ID (deploymentStatusInput AutoInactive env release)
          w.provider).1.toOption).isSome = true) := by
  unfold createStatus
  simp only []
  cases (svc.CreateStatus full d.ID (deploymentStatusInput AutoInactive env release)
    w.provider).1 <;> simp [Except.toOption]

/-- A hard `List` error is what `reconcile` returns. -/
theorem reconcile_list_error {σ : Type} (AutoInactive : Bool) (scmClient : Client σ)
    (svc : DeploymentService σ) (env : environment) (provider full : String)
    (release : ReleaseInfo) (w : World σ) (err : Error)
    (hd : scmClient.Deployments = some svc)
    (he : (svc.List full w.provider).1.2 = some err) (hn : err.notFound = false) :
    (reconcile AutoInactive scmClient env provider full release w).1 = some err := by
  have hres := find_result svc full env.name w
  unfold reconcile
  rw [hd]
  simp only []
  rcases hF : FindExistingDeploymentInEnvironment svc full env.name w with ⟨res, w1⟩
  rw [hF, he] at hres
  simp only [hn] at hres
  simp at hres
  subst hres
  rfl

/-- The result of the search when `List` did not fail hard. -/
theorem find_result_ok {σ : Type} (svc : DeploymentService σ) (full environment : String)
    (w : World σ)
    (herr : ∀ err, (svc.List full w.provider).1.2 = some err → err.notFound = true) :
    (FindExistingDeploymentInEnvironment svc full environment w).1 =
      .ok ((svc.List full w.provider).1.1.find? (matchesDeployment full environment)) := by
  rw [find_result]
  cases he : (svc.List full w.provider).1.2 with
  | none => rfl
  | some err => simp [herr err he]

/-- A successful `reconcile` did not meet a hard `List` error. -/
theorem list_ok_of_success {σ : Type} (AutoInactive : Bool) (scmClient : Client σ)
    (svc : DeploymentService σ) (env : environment) (provider full : String)
    (release : ReleaseInfo) (w : World σ) (hd : scmClient.Deployments = some svc)
    (hs : (reconcile AutoInactive scmClient env provider full release w).1 = none) :
    ∀ err, (svc.List full w.provider).1.2 = some err → err.notFound = true := by
  intro err he
  cases hn : err.notFound with
  | true => rfl
  | false =>
    rw [reconcile_list_error AutoInactive scmClient svc env provider full release w err hd he hn]
      at hs
    cases hs

/-- The unchanged case of `reconcile`: one `List` call and nothing else. -/
theorem reconcile_unchanged {σ : Type} (AutoInactive : Bool) (scmClient : Client σ)
    (svc : DeploymentService σ) (env : environment) (provider full : String)
    (release : ReleaseInfo) (w : World σ) (d : Deployment)
    (hd : scmClient.Deployments = some svc)
    (herr : ∀ err, (svc.List full w.provider).1.2 = some err → err.notFound = true)
    (hfind : (svc.List full w.provider).1.1.find? (matchesDeployment full env.name) = some d)
    (href : d.Ref = "v" ++ release.Version) :
    (reconcile AutoInactive scmClient env provider full release w).1 = none ∧
      (reconcile AutoInactive scmClient env provider full release w).2.provider =
        (svc.List full w.provider).2 ∧
      (reconcile AutoInactive scmClient env provider full release w).2.calls =
        w.calls ++ [Call.List full] := by
  have hres := find_result_ok svc full env.name w herr
  have heff := find_effects svc full env.name w
  unfold reconcile
  rw [hd]
  simp only []
  rcases hF : FindExistingDeploymentInEnvironment svc full env.name w with ⟨res, w1⟩
  rw [hF] at hres heff
  simp only [hfind] at hres heff
  subst hres
  simp [href, heff.1, heff.2]

/-- The changed case of `reconcile`: `List`, then `CreateStatus` on the
deployment found. -/
theorem reconcile_changed {σ : Type} (AutoInactive : Bool) (scmClient : Client σ)
    (svc : DeploymentService σ) (env : environment) (provider full : String)
    (release : ReleaseInfo) (w : World σ) (d : Deployment)
    (hd : scmClient.Deployments = some svc)
    (herr : ∀ err, (svc.List full w.provider).1.2 = some err → err.notFound = true)
    (hfind : (svc.List full w.provider).1.1.find? (matchesDeployment full env.name) = some d)
    (href : d.Ref ≠ "v" ++ release.Version) :
    (reconcile AutoInactive scmClient env provider full release w).2.provider =
        (svc.CreateStatus full d.ID (deploymentStatusInput AutoInactive env release)
          (svc.List full w.provider).2).2 ∧
      (reconcile AutoInactive scmClient env provider full release w).2.calls =
        w.calls ++ [Call.List full,
          Call.CreateStatus full d.ID (deploymentStatusInput AutoInactive env release)] := by
  have hres := find_result_ok svc full env.name w herr
  have heff := find_effects svc full env.name w
  unfold reconcile
  rw [hd]
  simp only []
  rcases hF : FindExistingDeploymentInEnvironment svc full env.name w with ⟨res, w1⟩
  rw [hF] at hres heff
  simp only [hfind] at hres heff
  subst hres
  have hne : ¬ ("v" ++ release.Version = d.Ref) := fun h => href h.symm
  have hcs := createStatus_effects AutoInactive svc env full ("v" ++ release.Version) release d w1
  simp only [hne, if_false]
  rw [hcs.1, hcs.2.1, heff.1, heff.2]
  simp

/-- The case of `reconcile` without an existing deployment, when `Create`
succeeds: `List`, `Create`, then `CreateStatus` on the new deployment. -/
theorem reconcile_created {σ : Type} (AutoInactive : Bool) (scmClient : Client σ)
    (svc : DeploymentService σ) (env : environment) (provider full : String)
    (release : ReleaseInfo) (w : World σ) (d : Deployment)
    (hd : scmClient.Deployments = some svc)
    (herr : ∀ err, (svc.List full w.provider).1.2 = some err → err.notFound = true)
    (hfind : (svc.List full w.provider).1.1.find? (matchesDeployment full env.name) = none)
    (hcreate : (svc.Create full (newDeploymentInput ("v" ++ release.Version) env.name full)
      (svc.List full w.provider).2).1 = .ok d) :
    (reconcile AutoInactive scmClient env provider full release w).2.provider =
        (svc.CreateStatus full d.ID (deploymentStatusInput AutoInactive env release)
          (svc.Create full (newDeploymentInput ("v" ++ release.Version) env.name full)
            (svc.List full w.provider).2).2).2 ∧
      (reconcile AutoInactive scmClient env provider full release w).2.calls =
        w.calls ++ [Call.List full,
          Call.Create full (newDeploymentInput ("v" ++ release.Version) env.name full),
          Call.CreateStatus full d.ID (deploymentStatusInput AutoInactive env release)] := by
  have hres := find_result_ok svc full env.name w herr
  have heff := find_effects svc full env.name w
  unfold reconcile
  rw [hd]
  simp only []
  rcases hF : FindExistingDeploymentInEnvironment svc full env.name w with ⟨res, w1⟩
  rw [hF] at hres heff
  simp only [hfind] at hres heff
  subst hres
  have hce := create_effects svc ("v" ++ release.Version) env.name full w1
  rcases hC : CreateNewDeployment svc ("v" ++ release.Version) env.name full w1 with ⟨cres, w2⟩
  rw [hC, heff.1, hcreate] at hce
  simp only [Except.toOption] at hce
  cases cres with
  | error e => simp [Except.toOption] at hce
  | ok d' =>
    have hdd : d' = d := by simpa [Except.toOption] using hce.2.2
    subst hdd
    have hcs := createStatus_effects AutoInactive svc env full ("v" ++ release.Version)
      release d' w2
    simp only []
    rw [hC]
    simp only []
    rw [hcs.1, hcs.2.1, hce.1, hce.2.1, heff.2]
    simp

/-- Without an existing deployment, a failing `Create` makes `reconcile` fail. -/
theorem reconcile_create_error {σ : Type} (AutoInactive : Bool) (scmClient : Client σ)
    (svc : DeploymentService σ) (env : environment) (provider full : String)
    (release : ReleaseInfo) (w : World σ) (e : Error)
    (hd : scmClient.Deployments = some svc)
    (herr : ∀ err, (svc.List full w.provider).1.2 = some err → err.notFound = true)
    (hfind : (svc.List full w.provider).1.1.find? (matchesDeployment full env.name) = none)
    (hcreate : (svc.Create full (newDeploymentInput ("v" ++ release.Version) env.name full)
      (svc.List full w.provider).2).1 = .error e) :
    (reconcile AutoInactive scmClient env provider full release w).1 ≠ none := by
  have hres := find_result_ok svc full env.name w herr
  have heff := find_effects svc full env.name w
  unfold reconcile
  rw [hd]
  simp only []
  rcases hF : FindExistingDeploymentInEnvironment svc full env.name w with ⟨res, w1⟩
  rw [hF] at hres heff
  simp only [hfind] at hres heff
  subst hres
  have hce := create_effects svc ("v" ++ release.Version) env.name full w1
  rcases hC : CreateNewDeployment svc ("v" ++ release.Version) env.name full w1 with ⟨cres, w2⟩
  rw [hC, heff.1, hcreate] at hce
  simp only []
  rw [hC]
  cases cres with
  | error e' => simp
  | ok d' => simp [Except.toOption] at hce

/-- The status step returns and does the same from worlds that agree on the
provider state and the calls made, for releases that agree outside their
sources. -/
theorem createStatus_congr {σ : Type} (AutoInactive : Bool) (svc : DeploymentService σ)
    (env : environment) (full ref : String) (release release' : ReleaseInfo) (d : Deployment)
    (w w' : World σ) (hV : release.Version = release'.Version)
    (hA : release.ApplicationURL = release'.ApplicationURL)
    (hL : release.LogsURL = release'.LogsURL) (hp : w.provider = w'.provider)
    (hc : w.calls = w'.calls) :
    (createStatus AutoInactive svc env full ref release d w).1 =
        (createStatus AutoInactive svc env full ref release' d w').1 ∧
      (createStatus AutoInactive svc env full ref release d w).2.provider =
        (createStatus AutoInactive svc env full ref release' d w').2.provider ∧
      (createStatus AutoInactive svc env full ref release d w).2.calls =
        (createStatus AutoInactive svc env full ref release' d w').2.calls := by
  have hin : deploymentStatusInput AutoInactive env release =
      deploymentStatusInput AutoInactive env release' := by
    simp [deploymentStatusInput, hV, hA, hL]
  unfold createStatus
  simp only [hin, hp, hc]
  cases (svc.CreateStatus full d.ID (deploymentStatusInput AutoInactive env release')
    w'.provider).1 <;> simp [hc]

/-- `CreateNewDeployment` returns and does the same from worlds that agree on
the provider state and the calls made. -/
theorem create_congr {σ : Type} (svc : DeploymentService σ) (ref environment full : String)
    (w w' : World σ) (hp : w.provider = w'.provider) (hc : w.calls = w'.calls) :
    (CreateNewDeployment svc ref environment full w).1 =
        (CreateNewDeployment svc ref environment full w').1 ∧
      (CreateNewDeployment svc ref environment full w).2.provider =
        (CreateNewDeployment svc ref environment full w').2.provider ∧
      (CreateNewDeployment svc ref environment full w).2.calls =
        (CreateNewDeployment svc ref environment full w').2.calls := by
  unfold CreateNewDeployment
  simp only [hp, hc]
  cases (svc.Create full (newDeploymentInput ref environment full) w'.provider).1 <;>
    simp [hc]

/-- What `reconcile` returns and does to the provider does not depend on the
log, nor on the sources of the release. -/
theorem reconcile_congr {σ : Type} (AutoInactive : Bool) (scmClient : Client σ)
    (env : environment) (provider full : String) (release release' : ReleaseInfo)
    (w w' : World σ) (hV : release.Version = release'.Version)
    (hA : release.ApplicationURL = release'.ApplicationURL)
    (hL : release.LogsURL = release'.LogsURL) (hp : w.provider = w'.provider)
    (hc : w.calls = w'.calls) :
    (reconcile AutoInactive scmClient env provider full release w).1 =
        (reconcile AutoInactive scmClient env provider full release' w').1 ∧
      (reconcile AutoInactive scmClient env provider full release w).2.provider =
        (reconcile AutoInactive scmClient env provider full release' w').2.provider ∧
      (reconcile AutoInactive scmClient env provider full release w).2.calls =
        (reconcile AutoInactive scmClient env provider full release' w').2.calls := by
  unfold reconcile
  cases hd : scmClient.Deployments with
  | none => simp [hp, hc]
  | some svc =>
    simp only []
    have r1 := find_result svc full env.name w
    have e1 := find_effects svc full env.name w
    have r2 := find_result svc full env.name w'
    have e2 := find_effects svc full env.name w'
    rw [hp] at r1 e1
    rcases hF : FindExistingDeploymentInEnvironment svc full env.name w with ⟨res, w1⟩
    rcases hF' : FindExistingDeploymentInEnvironment svc full env.name w' with ⟨res', w1'⟩
    rw [hF] at r1 e1
    rw [hF'] at r2 e2
    have hres : res = res' := r1.trans r2.symm
    subst hres
    have hp1 : w1.provider = w1'.provider := e1.1.trans e2.1.symm
    have hc1 : w1.calls = w1'.calls := by rw [e1.2, e2.2, hc]
    rw [← hV]
    cases res with
    | error e => exact ⟨rfl, hp1, hc1⟩
    | ok found =>
      cases found with
      | none =>
        simp only []
        have hcc := create_congr svc ("v" ++ release.Version) env.name full w1 w1' hp1 hc1
        rcases hC : CreateNewDeployment svc ("v" ++ release.Version) env.name full w1
          with ⟨cres, w2⟩
        rcases hC' : CreateNewDeployment svc ("v" ++ release.Version) env.name full w1'
          with ⟨cres', w2'⟩
        rw [hC, hC'] at hcc
        obtain ⟨h1, h2, h3⟩ := hcc
        simp only at h1 h2 h3
        subst h1
        cases cres with
        | error e => exact ⟨rfl, h2, h3⟩
        | ok d =>
          exact createStatus_congr AutoInactive svc env full _ release release' d w2 w2'
            hV hA hL h2 h3
      | some d =>
        simp only []
        by_cases href : "v" ++ release.Version = d.Ref
        · simp [href, hp1, hc1]
        · simp only [href, if_false]
          exact createStatus_congr AutoInactive svc env full _ release release' d w1 w1'
            hV hA hL hp1 hc1

/-! ## Claims on `updateStatus` -/

/-- C1. Idempotence of the unchanged case: when the release has a version `V`
and the first deployment that `List` returns for the resolved repository and
matches (short name, environment name) has ref `"v" ++ V`, `updateStatus`
returns nil after the one `List` call, with no `Create` and no `CreateStatus`,
and leaves the provider in the state `List` left it; when `List` does not
change the provider state, any number of repeated invocations returns nil
each time, leaves the provider state as it was and makes `List` calls only. -/
theorem updateStatus_unchanged_idempotent {σ : Type} (parse : String → Option GitRepository)
    (AutoInactive : Bool) (scmClient : Client σ) (svc : DeploymentService σ)
    (env : environment) (provider owner repoName : String) (release : ReleaseInfo)
    (w : World σ) (d : Deployment) (full : String)
    (hfull : full = resolveFullRepoName parse provider owner repoName release.Sources)
    (hv : release.Version ≠ "")
    (hd : scmClient.Deployments = some svc)
    (herr : ∀ err, (svc.List full w.provider).1.2 = some err → err.notFound = true)
    (hfind : (svc.List full w.provider).1.1.find? (matchesDeployment full env.name) = some d)
    (href : d.Ref = "v" ++ release.Version) :
    (updateStatus parse AutoInactive scmClient env provider owner repoName release w).1 = none ∧
      (updateStatus parse AutoInactive scmClient env provider owner repoName release w).2.calls =
        w.calls ++ [Call.List full] ∧
      (updateStatus parse AutoInactive scmClient env provider owner repoName release
        w).2.provider = (svc.List full w.provider).2 ∧
      ((svc.List full w.provider).2 = w.provider → ∀ n : Nat,
        ((fun v => (updateStatus parse AutoInactive scmClient env provider owner repoName
          release v).2)^[n] w).provider = w.provider ∧
        ((fun v => (updateStatus parse AutoInactive scmClient env provider owner repoName
          release v).2)^[n] w).calls = w.calls ++ List.replicate n (Call.List full) ∧
        (updateStatus parse AutoInactive scmClient env provider owner repoName release
          ((fun v => (updateStatus parse AutoInactive scmClient env provider owner repoName
            release v).2)^[n] w)).1 = none) := by
  subst hfull
  have step : ∀ v : World σ, v.provider = w.provider →
      (updateStatus parse AutoInactive scmClient env provider owner repoName release v).1 = none ∧
      (updateStatus parse AutoInactive scmClient env provider owner repoName release
        v).2.provider = (svc.List (resolveFullRepoName parse provider owner repoName
          release.Sources) w.provider).2 ∧
      (updateStatus parse AutoInactive scmClient env provider owner repoName release v).2.calls =
        v.calls ++ [Call.List (resolveFullRepoName parse provider owner repoName
          release.Sources)] := by
    intro v hvw
    unfold updateStatus
    rw [if_neg hv]
    have h := reconcile_unchanged AutoInactive scmClient svc env provider
      (resolveFullRepoName parse provider owner repoName release.Sources) release
      { v with logs := v.logs ++ sourceWarnings parse release.Sources } d hd
      (by simpa [hvw] using herr) (by simpa [hvw] using hfind) href
    simpa [hvw] using h
  obtain ⟨s1, s2, s3⟩ := step w rfl
  refine ⟨s1, s3, s2, ?_⟩
  intro hro n
  induction n with
  | zero => exact ⟨rfl, by simp, s1⟩
  | succ k ih =>
    obtain ⟨ihp, ihc, _⟩ := ih
    rw [Function.iterate_succ_apply']
    obtain ⟨_, t2, t3⟩ := step _ ihp
    have hp' : (updateStatus parse AutoInactive scmClient env provider owner repoName release
        ((fun v => (updateStatus parse AutoInactive scmClient env provider owner repoName
          release v).2)^[k] w)).2.provider = w.provider := by rw [t2, hro]
    refine ⟨hp', ?_, (step _ hp').1⟩
    rw [t3, ihc, List.append_assoc, List.replicate_succ']

/-- C2. Version change: when the release has a version `V`, the first
deployment that `List` returns for the resolved repository and matches
(short name, environment name) has a ref other than `"v" ++ V`, and
`updateStatus` returns nil, the calls it made are exactly `List` followed by
one `CreateStatus` on that deployment's id: no `Create` call. -/
theorem updateStatus_changed_calls {σ : Type} (parse : String → Option GitRepository)
    (AutoInactive : Bool) (scmClient : Client σ) (svc : DeploymentService σ)
    (env : environment) (provider owner repoName : String) (release : ReleaseInfo)
    (w : World σ) (d : Deployment) (full : String)
    (hfull : full = resolveFullRepoName parse provider owner repoName release.Sources)
    (hv : release.Version ≠ "")
    (hd : scmClient.Deployments = some svc)
    (hfind : (svc.List full w.provider).1.1.find? (matchesDeployment full env.name) = some d)
    (href : d.Ref ≠ "v" ++ release.Version)
    (hsuccess : (updateStatus parse AutoInactive scmClient env provider owner repoName release
      w).1 = none) :
    (updateStatus parse AutoInactive scmClient env provider owner repoName release w).2.calls =
      w.calls ++ [Call.List full,
        Call.CreateStatus full d.ID (deploymentStatusInput AutoInactive env release)] := by
  subst hfull
  unfold updateStatus at hsuccess ⊢
  rw [if_neg hv] at hsuccess ⊢
  have herr := list_ok_of_success AutoInactive scmClient svc env provider _ release _ hd hsuccess
  exact (reconcile_changed AutoInactive scmClient svc env provider _ release _ d hd herr
    hfind href).2

/-- C3. No existing deployment: when the release has a version `V`, no
deployment that `List` returns for the resolved repository matches (short
name, environment name), and `updateStatus` returns nil, then `Create`
returned a deployment and the calls made are exactly `List`, one `Create`
whose input has ref `"v" ++ V`, and one `CreateStatus` on the id of the
deployment `Create` returned. -/
theorem updateStatus_created_calls {σ : Type} (parse : String → Option GitRepository)
    (AutoInactive : Bool) (scmClient : Client σ) (svc : DeploymentService σ)
    (env : environment) (provider owner repoName : String) (release : ReleaseInfo)
    (w : World σ) (full : String)
    (hfull : full = resolveFullRepoName parse provider owner repoName release.Sources)
    (hv : release.Version ≠ "")
    (hd : scmClient.Deployments = some svc)
    (hfind : (svc.List full w.provider).1.1.find? (matchesDeployment full env.name) = none)
    (hsuccess : (updateStatus parse AutoInactive scmClient env provider owner repoName release
      w).1 = none) :
    ∃ input : DeploymentInput, ∃ created : Deployment,
      input.Ref = "v" ++ release.Version ∧
      (svc.Create full input (svc.List full w.provider).2).1 = .ok created ∧
      (updateStatus parse AutoInactive scmClient env provider owner repoName release w).2.calls =
        w.calls ++ [Call.List full, Call.Create full input,
          Call.CreateStatus full created.ID (deploymentStatusInput AutoInactive env release)] := by
  subst hfull
  unfold updateStatus at hsuccess ⊢
  rw [if_neg hv] at hsuccess ⊢
  have herr := list_ok_of_success AutoInactive scmClient svc env provider _ release _ hd hsuccess
  refine ⟨newDeploymentInput ("v" ++ release.Version) env.name
    (resolveFullRepoName parse provider owner repoName release.Sources), ?_⟩
  cases hC : (svc.Create (resolveFullRepoName parse provider owner repoName release.Sources)
      (newDeploymentInput ("v" ++ release.Version) env.name
        (resolveFullRepoName parse provider owner repoName release.Sources))
      (svc.List (resolveFullRepoName parse provider owner repoName release.Sources)
        w.provider).2).1 with
  | error e =>
    exact absurd hsuccess (reconcile_create_error AutoInactive scmClient svc env provider _
      release _ e hd herr hfind hC)
  | ok created =>
    exact ⟨created, rfl, rfl, (reconcile_created AutoInactive scmClient svc env provider _
      release _ created hd herr hfind hC).2⟩

/-- C7. Skip conditions are silent no-ops: for a release with an empty
version, and for a client without the deployment capability, `updateStatus`
returns nil, makes no provider call and leaves the provider state as it was,
whatever the sources, the environment and the provider state. -/
theorem updateStatus_skip_no_calls {σ : Type} (parse : String → Option GitRepository)
    (AutoInactive : Bool) (scmClient : Client σ) (env : environment)
    (provider owner repoName : String) (release : ReleaseInfo) (w : World σ)
    (h : release.Version = "" ∨ scmClient.Deployments = none) :
    (updateStatus parse AutoInactive scmClient env provider owner repoName release w).1 = none ∧
      (updateStatus parse AutoInactive scmClient env provider owner repoName release w).2.calls =
        w.calls ∧
      (updateStatus parse AutoInactive scmClient env provider owner repoName release
        w).2.provider = w.provider := by
  unfold updateStatus
  by_cases hv : release.Version = ""
  · simp [hv]
  · rcases h with h | h
    · exact absurd h hv
    · rw [if_neg hv]
      unfold reconcile
      rw [h]
      exact ⟨rfl, rfl, rfl⟩

/-! ## Claims on the repository matcher -/

/-- C8. Repository matcher, confirmation: when some source parses, has a host
the provider string contains and has the assumed full name `owner/repoName`
in its text, the resolved name is the assumed full name, whatever the other
sources and their order. -/
theorem resolveFullRepoName_confirmed (parse : String → Option GitRepository)
    (provider owner repoName : String) (sources : List String)
    (h : ∃ s ∈ sources, ∃ g, parse s = some g ∧ stringsContains provider g.Host = true ∧
      stringsContains s (scmJoin owner repoName) = true) :
    resolveFullRepoName parse provider owner repoName sources = scmJoin owner repoName := by
  unfold resolveFullRepoName
  simp only []
  split
  · rw [foldl_scan_confirms parse provider owner (scmJoin owner repoName) sources
      SourceScan.init h]
    rfl
  · rfl

/-- C9. Repository matcher, fallback order: for a sources list without a
confirming source the resolved name is `organisation/name` of the last
considered source of the group owner if there is one, else of the last
considered source of another organisation if there is one, else the assumed
full name (`fallbackRepoName`). -/
theorem resolveFullRepoName_fallback (parse : String → Option GitRepository)
    (provider owner repoName : String) (sources : List String)
    (h : ∀ s ∈ sources, ∀ g, parse s = some g → stringsContains provider g.Host = true →
      stringsContains s (scmJoin owner repoName) = false) :
    resolveFullRepoName parse provider owner repoName sources =
      fallbackRepoName parse provider owner repoName sources := by
  unfold resolveFullRepoName fallbackRepoName
  simp only []
  split
  · rw [foldl_scan_unconfirmed parse provider owner (scmJoin owner repoName) sources h]
    simp only [Bool.not_false, if_true]
    cases (((sources.filterMap parse).filter (fun g => stringsContains provider g.Host)).filter
      (fun g => decide (g.Organisation = owner))).getLast? <;> rfl
  · rename_i hlen
    have hnil : sources = [] := by
      cases sources with
      | nil => rfl
      | cons a l => simp at hlen
    subst hnil
    rfl

/-- C10, as amended. The repository matcher only follows sources it
considers: a resolved name other than the assumed full name is
`organisation/name` of a source that parses and whose host the provider
string contains; dropping the sources that do not parse or whose host the
provider string does not contain changes neither the resolved name nor what
`updateStatus` returns, the provider calls it makes and the provider state it
leaves. -/
theorem resolveFullRepoName_considered_only (parse : String → Option GitRepository)
    (provider owner repoName : String) (sources : List String) :
    (resolveFullRepoName parse provider owner repoName sources ≠ scmJoin owner repoName →
      ∃ s ∈ sources, ∃ g, parse s = some g ∧ stringsContains provider g.Host = true ∧
        resolveFullRepoName parse provider owner repoName sources =
          scmJoin g.Organisation g.Name) ∧
    resolveFullRepoName parse provider owner repoName
        (sources.filter (consideredSource parse provider)) =
      resolveFullRepoName parse provider owner repoName sources ∧
    ∀ (σ : Type) (AutoInactive : Bool) (scmClient : Client σ) (env : environment)
      (release : ReleaseInfo) (w : World σ), release.Sources = sources →
      (updateStatus parse AutoInactive scmClient env provider owner repoName
          { release with Sources := sources.filter (consideredSource parse provider) } w).1 =
        (updateStatus parse AutoInactive scmClient env provider owner repoName release w).1 ∧
      (updateStatus parse AutoInactive scmClient env provider owner repoName
          { release with Sources := sources.filter (consideredSource parse provider) }
          w).2.calls =
        (updateStatus parse AutoInactive scmClient env provider owner repoName release
          w).2.calls ∧
      (updateStatus parse AutoInactive scmClient env provider owner repoName
          { release with Sources := sources.filter (consideredSource parse provider) }
          w).2.provider =
        (updateStatus parse AutoInactive scmClient env provider owner repoName release
          w).2.provider := by
  have hfilter : resolveFullRepoName parse provider owner repoName
        (sources.filter (consideredSource parse provider)) =
      resolveFullRepoName parse provider owner repoName sources := by
    unfold resolveFullRepoName
    simp only []
    by_cases h1 : (sources.filter (consideredSource parse provider)).length > 0
    · have h2 : sources.length > 0 :=
        lt_of_lt_of_le h1 (List.length_filter_le _ _)
      rw [if_pos h1, if_pos h2, foldl_scan_filter_considered]
    · have hnil : sources.filter (consideredSource parse provider) = [] := by
        cases hf : sources.filter (consideredSource parse provider) with
        | nil => rfl
        | cons a l => rw [hf] at h1; simp at h1
      have hfold := foldl_scan_filter_considered parse provider owner
        (scmJoin owner repoName) sources SourceScan.init
      rw [hnil] at hfold
      rw [if_neg h1, ← hfold]
      split <;> rfl
  refine ⟨?_, hfilter, ?_⟩
  · intro hne
    unfold resolveFullRepoName at hne ⊢
    simp only [] at hne ⊢
    by_cases hlen : sources.length > 0
    · rw [if_pos hlen] at hne ⊢
      by_cases hconf : (sources.foldl (scanSource parse provider owner
          (scmJoin owner repoName)) SourceScan.init).repoInSources = true
      · simp [hconf] at hne
      · simp only [hconf, Bool.not_false, if_true, Bool.false_eq_true, if_false,
          Bool.not_eq_true] at hne ⊢
        cases hA : (sources.foldl (scanSource parse provider owner
            (scmJoin owner repoName)) SourceScan.init).alternativeRepoInOwner with
        | some g =>
          obtain ⟨s', hs', hp', hh'⟩ := foldl_scan_alternatives parse provider owner
            (scmJoin owner repoName) sources g (Or.inl hA)
          refine ⟨s', hs', g, hp', hh', ?_⟩
          simp [hA, hconf]
        | none =>
          cases hB : (sources.foldl (scanSource parse provider owner
              (scmJoin owner repoName)) SourceScan.init).alternativeRepo with
          | some g =>
            obtain ⟨s', hs', hp', hh'⟩ := foldl_scan_alternatives parse provider owner
              (scmJoin owner repoName) sources g (Or.inr hB)
            refine ⟨s', hs', g, hp', hh', ?_⟩
            simp [hA, hB, hconf]
          | none => simp [hA, hB] at hne
    · rw [if_neg hlen] at hne
      exact absurd rfl hne
  · intro σ AutoInactive scmClient env release w hsrc
    subst hsrc
    unfold updateStatus
    by_cases hv : release.Version = ""
    · simp [hv]
    · simp only [hv, if_false]
      rw [hfilter]
      have h := reconcile_congr AutoInactive scmClient env provider
        (resolveFullRepoName parse provider owner repoName release.Sources)
        { release with Sources := release.Sources.filter (consideredSource parse provider) }
        release
        { w with logs := (w.logs ++ sourceWarnings parse
            (release.Sources.filter (consideredSource parse provider))) }
        { w with logs := w.logs ++ sourceWarnings parse release.Sources }
        rfl rfl rfl rfl rfl
      exact ⟨h.1, h.2.2, h.2.1⟩

/-- The unchanged case on the test data: `fakeRepo` 0.0.2 against a production
deployment at `v0.0.2`, once and three times over. -/
theorem updateStatus_unchanged_idempotent_witness :
    (updateStatus parseHTTPSGitURL true fakeClient sampleEnv "https://fake.com" "fakeOwner"
        "fakeRepo" sampleRelease (freshWorld (sampleData [sampleDeployment "v0.0.2"]))).1 = none ∧
      (updateStatus parseHTTPSGitURL true fakeClient sampleEnv "https://fake.com" "fakeOwner"
        "fakeRepo" sampleRelease
        (freshWorld (sampleData [sampleDeployment "v0.0.2"]))).2.calls =
        [Call.List "fakeOwner/fakeRepo"] ∧
      ((fun v => (updateStatus parseHTTPSGitURL true fakeClient sampleEnv "https://fake.com"
        "fakeOwner" "fakeRepo" sampleRelease v).2)^[3]
        (freshWorld (sampleData [sampleDeployment "v0.0.2"]))).provider =
        sampleData [sampleDeployment "v0.0.2"] :=
  have h := updateStatus_unchanged_idempotent parseHTTPSGitURL true fakeClient fakeDeployments
    sampleEnv "https://fake.com" "fakeOwner" "fakeRepo" sampleRelease
    (freshWorld (sampleData [sampleDeployment "v0.0.2"])) (sampleDeployment "v0.0.2")
    "fakeOwner/fakeRepo" (by decide) (by decide) rfl (fun _ h => by cases h) (by decide)
    (by decide)
  ⟨h.1, h.2.1, (h.2.2.2 rfl 3).1⟩

/-- The changed case on the test data: `fakeRepo` 0.0.2 against a production
deployment at `v0.0.1`. -/
theorem updateStatus_changed_calls_witness :
    (updateStatus parseHTTPSGitURL true fakeClient sampleEnv "https://fake.com" "fakeOwner"
        "fakeRepo" sampleRelease
        (freshWorld (sampleData [sampleDeployment "v0.0.1"]))).2.calls =
      [Call.List "fakeOwner/fakeRepo",
        Call.CreateStatus "fakeOwner/fakeRepo" "deployment-1"
          (deploymentStatusInput true sampleEnv sampleRelease)] :=
  updateStatus_changed_calls parseHTTPSGitURL true fakeClient fakeDeployments
    sampleEnv "https://fake.com" "fakeOwner" "fakeRepo" sampleRelease
    (freshWorld (sampleData [sampleDeployment "v0.0.1"])) (sampleDeployment "v0.0.1")
    "fakeOwner/fakeRepo" (by decide) (by decide) rfl (by decide) (by decide) (by decide)

/-- The case without a deployment on the test data: `fakeRepo` 0.0.2 against an
empty provider. -/
theorem updateStatus_created_calls_witness :
    ∃ input : DeploymentInput, ∃ created : Deployment,
      input.Ref = "v" ++ sampleRelease.Version ∧
      (fakeDeployments.Create "fakeOwner/fakeRepo" input
        (fakeDeployments.List "fakeOwner/fakeRepo"
          (freshWorld (sampleData [])).provider).2).1 = .ok created ∧
      (updateStatus parseHTTPSGitURL true fakeClient sampleEnv "https://fake.com" "fakeOwner"
        "fakeRepo" sampleRelease (freshWorld (sampleData []))).2.calls =
        (freshWorld (sampleData [])).calls ++ [Call.List "fakeOwner/fakeRepo",
          Call.Create "fakeOwner/fakeRepo" input,
          Call.CreateStatus "fakeOwner/fakeRepo" created.ID
            (deploymentStatusInput true sampleEnv sampleRelease)] :=
  updateStatus_created_calls parseHTTPSGitURL true fakeClient fakeDeployments
    sampleEnv "https://fake.com" "fakeOwner" "fakeRepo" sampleRelease
    (freshWorld (sampleData [])) "fakeOwner/fakeRepo" (by decide) (by decide) rfl (by decide)
    (by decide)

/-- The skip on a client without the deployment capability. -/
theorem updateStatus_skip_no_calls_witness :
    (updateStatus parseHTTPSGitURL true bareClient sampleEnv "https://fake.com" "fakeOwner"
        "fakeRepo" sampleRelease (freshWorld (sampleData []))).1 = none ∧
      (updateStatus parseHTTPSGitURL true bareClient sampleEnv "https://fake.com" "fakeOwner"
        "fakeRepo" sampleRelease (freshWorld (sampleData []))).2.calls = [] ∧
      (updateStatus parseHTTPSGitURL true bareClient sampleEnv "https://fake.com" "fakeOwner"
        "fakeRepo" sampleRelease (freshWorld (sampleData []))).2.provider = sampleData [] :=
  updateStatus_skip_no_calls parseHTTPSGitURL true bareClient sampleEnv "https://fake.com"
    "fakeOwner" "fakeRepo" sampleRelease (freshWorld (sampleData [])) (Or.inr rfl)

/-- A confirming source between a same-owner and a cross-owner alternative. -/
theorem resolveFullRepoName_confirmed_witness :
    resolveFullRepoName parseHTTPSGitURL "https://fake.com" "fakeOwner" "fakeRepo"
        ["https://fake.com/fakeOwner/other", "https://fake.com/fakeOwner/fakeRepo",
          "https://fake.com/stranger/thing"] =
      scmJoin "fakeOwner" "fakeRepo" :=
  resolveFullRepoName_confirmed parseHTTPSGitURL "https://fake.com" "fakeOwner" "fakeRepo"
    ["https://fake.com/fakeOwner/other", "https://fake.com/fakeOwner/fakeRepo",
      "https://fake.com/stranger/thing"]
    ⟨"https://fake.com/fakeOwner/fakeRepo", by decide,
      { Host := "fake.com", Organisation := "fakeOwner", Name := "fakeRepo" },
      by decide, by decide, by decide⟩

/-- Two same-owner alternatives, then a cross-owner one: the second same-owner
alternative is used. -/
theorem resolveFullRepoName_fallback_witness :
    resolveFullRepoName parseHTTPSGitURL "https://fake.com" "fakeOwner" "fakeRepo"
        ["https://fake.com/fakeOwner/alt1", "https://fake.com/fakeOwner/alt2",
          "https://fake.com/stranger/thing"] =
      fallbackRepoName parseHTTPSGitURL "https://fake.com" "fakeOwner" "fakeRepo"
        ["https://fake.com/fakeOwner/alt1", "https://fake.com/fakeOwner/alt2",
          "https://fake.com/stranger/thing"] ∧
    fallbackRepoName parseHTTPSGitURL "https://fake.com" "fakeOwner" "fakeRepo"
        ["https://fake.com/fakeOwner/alt1", "https://fake.com/fakeOwner/alt2",
          "https://fake.com/stranger/thing"] = "fakeOwner/alt2" :=
  ⟨resolveFullRepoName_fallback parseHTTPSGitURL "https://fake.com" "fakeOwner" "fakeRepo"
    ["https://fake.com/fakeOwner/alt1", "https://fake.com/fakeOwner/alt2",
      "https://fake.com/stranger/thing"]
    (by
      intro s hs g _ _
      simp only [List.mem_cons, List.mem_singleton, List.not_mem_nil, or_false] at hs
      rcases hs with rfl | rfl | rfl <;> decide),
   by decide⟩

/-- C10, the claim as stated fails: with the provider `https://github.com`, a
source on the host `hub.com`, which is not the provider's host but is
contained in the provider string, redirects `myorg/myrepo` to `evil/repo`. -/
theorem resolveFullRepoName_follows_other_host :
    parseHTTPSGitURL "https://hub.com/evil/repo" =
        some { Host := "hub.com", Organisation := "evil", Name := "repo" } ∧
      parseHTTPSGitURL "https://github.com/myorg/myrepo" =
        some { Host := "github.com", Organisation := "myorg", Name := "myrepo" } ∧
      stringsContains "https://github.com" "hub.com" = true ∧
      resolveFullRepoName parseHTTPSGitURL "https://github.com" "myorg" "myrepo" [] =
        "myorg/myrepo" ∧
      resolveFullRepoName parseHTTPSGitURL "https://github.com" "myorg" "myrepo"
        ["https://hub.com/evil/repo"] = "evil/repo" := by
  decide

/-- An unparsable source and a source on another host before a same-owner
alternative. -/
theorem resolveFullRepoName_considered_only_witness :
    resolveFullRepoName parseHTTPSGitURL "https://fake.com" "fakeOwner" "fakeRepo"
        ["not a url", "https://elsewhere.org/fakeOwner/thing",
          "https://fake.com/fakeOwner/alt1"] = "fakeOwner/alt1" ∧
      resolveFullRepoName parseHTTPSGitURL "https://fake.com" "fakeOwner" "fakeRepo"
        (["not a url", "https://elsewhere.org/fakeOwner/thing",
          "https://fake.com/fakeOwner/alt1"].filter
            (consideredSource parseHTTPSGitURL "https://fake.com")) =
      resolveFullRepoName parseHTTPSGitURL "https://fake.com" "fakeOwner" "fakeRepo"
        ["not a url", "https://elsewhere.org/fakeOwner/thing",
          "https://fake.com/fakeOwner/alt1"] ∧
      ∃ s ∈ ["not a url", "https://elsewhere.org/fakeOwner/thing",
          "https://fake.com/fakeOwner/alt1"], ∃ g, parseHTTPSGitURL s = some g ∧
        stringsContains "https://fake.com" g.Host = true ∧
        resolveFullRepoName parseHTTPSGitURL "https://fake.com" "fakeOwner" "fakeRepo"
          ["not a url", "https://elsewhere.org/fakeOwner/thing",
            "https://fake.com/fakeOwner/alt1"] = scmJoin g.Organisation g.Name :=
  have h := resolveFullRepoName_considered_only parseHTTPSGitURL "https://fake.com"
    "fakeOwner" "fakeRepo"
    ["not a url", "https://elsewhere.org/fakeOwner/thing", "https://fake.com/fakeOwner/alt1"]
  ⟨by decide, h.2.1, h.1 (by decide)⟩

/-! ## The deploy window of the driver -/

/-- A loop whose body continues without touching the state leaves the state. -/
theorem rangeLoop_skip {α S : Type} (xs : List α) (body : α → S → Option Error × S) (s : S)
    (h : ∀ a ∈ xs, body a s = (none, s)) : rangeLoop xs body s = (none, s) := by
  induction xs with
  | nil => rfl
  | cons a rest ih =>
    unfold rangeLoop
    rw [h a (by simp)]
    exact ih (fun b hb => h b (by simp [hb]))

/-- With the zero cutoff the condition of lines 149 and 215 skips every release. -/
theorem skipRelease_zero (release : ReleaseInfo) : skipRelease 0 release = true := by
  simp [skipRelease, Time.IsZero]

/-- The releases the condition of lines 149 and 215 lets through: those with
a deployment time at or before a non-zero cutoff. -/
theorem skipRelease_eq_false_iff (cutoff : Time) (release : ReleaseInfo) :
    skipRelease cutoff release = false ↔
      cutoff ≠ 0 ∧ ∃ t, release.LastDeployed = some t ∧ t ≤ cutoff := by
  unfold skipRelease Time.IsZero Time.Before
  cases release.LastDeployed with
  | none => simp
  | some t => simp

/-- With the zero cutoff `updateStatuses` reconciles nothing: it returns nil
and leaves the options and the world as they were. -/
theorem updateStatuses_zero_cutoff {σ : Type} (x : Externals σ) (group : RepositoryGroup)
    (repo : Repository) (s : Options σ × World σ) (h : s.1.DeployCutoff = 0) :
    updateStatuses x group repo s = (none, s) := by
  unfold updateStatuses
  apply rangeLoop_skip
  intro nsr _
  apply rangeLoop_skip
  intro release _
  unfold updateStatusesRelease
  rw [h, skipRelease_zero]
  split <;> rfl

/-- With the zero cutoff the loops of `Run` without groups reconcile nothing:
no provider call, no client created, only the warning of line 142. -/
theorem runNoGroups_zero_cutoff {σ : Type} (x : Externals σ) (s : Options σ × World σ)
    (h : s.1.DeployCutoff = 0) :
    runNoGroups x s = (none, (s.1, s.2.log (.Warnf ("no source config found in dir " ++
      s.1.Dir ++ ". Will assume all repos are in the current organisation as gitops repo")))) := by
  unfold runNoGroups
  simp only []
  apply rangeLoop_skip
  intro nsr _
  apply rangeLoop_skip
  intro release _
  unfold runRelease
  simp only []
  rw [h, skipRelease_zero]
  rfl

/-- The cutoff `setDeployCutoff` computes from a parsable offset is `now`
plus the offset. -/
theorem setDeployCutoff_ok {σ : Type} (x : Externals σ) (now : Time) (o : Options σ)
    (dur : Int) (hoff : o.DeployOffset ≠ "") (hdur : x.ParseDuration o.DeployOffset = .ok dur) :
    setDeployCutoff x now o = .ok { o with DeployCutoff := now + dur } := by
  unfold setDeployCutoff
  rw [if_pos hoff, hdur]
  rfl

/-- C4, on the code. With `deploy-offset` empty the cutoff stays the zero
time, and then the driver skips every release: on the report with the one
release `fakeRepo` 0.0.2, `Run`, the loops without groups and
`updateStatuses` make no provider call and log nothing for the release,
though `updateStatus` on that release makes three calls. -/
theorem zero_cutoff_skips_every_release :
    (sampleOptions 0 sampleRelease).DeployOffset = "" ∧
      (sampleOptions 0 sampleRelease).DeployCutoff = 0 ∧
      (Run sampleExternals (sampleInputs sampleRelease)
        (sampleOptions 0 sampleRelease, freshWorld (sampleData []))).1 = none ∧
      (Run sampleExternals (sampleInputs sampleRelease)
        (sampleOptions 0 sampleRelease, freshWorld (sampleData []))).2.2.calls = [] ∧
      (Run sampleExternals (sampleInputs sampleRelease)
        (sampleOptions 0 sampleRelease, freshWorld (sampleData []))).2.2.provider =
          sampleData [] ∧
      (runNoGroups sampleExternals
        (sampleOptions 0 sampleRelease, freshWorld (sampleData []))).2.2.calls = [] ∧
      (updateStatuses sampleExternals sampleGroup { Name := "fakeRepo" }
        (sampleOptions 0 sampleRelease, freshWorld (sampleData []))).2.2.calls = [] ∧
      (updateStatuses sampleExternals sampleGroup { Name := "fakeRepo" }
        (sampleOptions 0 sampleRelease, freshWorld (sampleData []))).2.2.logs = [] ∧
      (updateStatus parseHTTPSGitURL true fakeClient sampleEnv "https://fake.com" "fakeOwner"
        "fakeRepo" sampleRelease (freshWorld (sampleData []))).2.calls.length = 3 := by
  decide

/-- C5, on the code. With the non-zero cutoff 100, the release `fakeRepo`
0.0.2 deployed at 50, before the cutoff, is passed to `updateStatus` by the
loops without groups and by `updateStatuses`: each makes the `List`, `Create`
and `CreateStatus` calls for it. -/
theorem release_before_cutoff_is_reconciled :
    sampleRelease.LastDeployed = some 50 ∧
      Time.Before 50 100 = true ∧
      skipRelease 100 sampleRelease = false ∧
      (runNoGroups sampleExternals
        (sampleOptions 100 sampleRelease, freshWorld (sampleData []))).2.2.calls =
        [Call.List "fakeOwner/fakeRepo",
          Call.Create "fakeOwner/fakeRepo"
            (newDeploymentInput "v0.0.2" "Production" "fakeOwner/fakeRepo"),
          Call.CreateStatus "fakeOwner/fakeRepo" "deployment-1"
            (deploymentStatusInput true sampleEnv sampleRelease)] ∧
      (updateStatuses sampleExternals sampleGroup { Name := "fakeRepo" }
        (sampleOptions 100 sampleRelease, freshWorld (sampleData []))).2.2.calls =
        [Call.List "fakeOwner/fakeRepo",
          Call.Create "fakeOwner/fakeRepo"
            (newDeploymentInput "v0.0.2" "Production" "fakeOwner/fakeRepo"),
          Call.CreateStatus "fakeOwner/fakeRepo" "deployment-1"
            (deploymentStatusInput true sampleEnv sampleRelease)] := by
  decide

/-- C6, on the code. With `deploy-offset` `2h` (7200000000000 ns) and the
clock at 1000000000000000, `Run` sets the cutoff to the clock plus the offset,
1007200000000000, not to the clock minus the offset, 992800000000000. -/
theorem deploy_cutoff_is_now_plus_offset :
    ((setDeployCutoff sampleExternals 1000000000000000
        { sampleOptions 0 sampleRelease with DeployOffset := "2h" }).toOption.map
          (fun o => o.DeployCutoff)) = some (1000000000000000 + 7200000000000) ∧
      (Run sampleExternals (sampleInputs sampleRelease)
        ({ sampleOptions 0 sampleRelease with DeployOffset := "2h" },
          freshWorld (sampleData []))).2.1.DeployCutoff = 1007200000000000 ∧
      (1007200000000000 : Int) ≠ 1000000000000000 - 7200000000000 := by
  decide

/-! ## The environment resolver -/

theorem GoMap.get?_set_same {α : Type} (m : GoMap α) (k : String) (v : α) :
    (m.set k v).get? k = some v := by
  simp [GoMap.get?, GoMap.set]

theorem GoMap.get?_set_other {α : Type} (m : GoMap α) (k k' : String) (v : α) (h : k' ≠ k) :
    (m.set k v).get? k' = m.get? k' := by
  have hk : (k == k') = false := by simpa using fun h' => h h'.symm
  simp only [GoMap.get?, GoMap.set, List.find?_cons, hk, List.find?_filter]
  congr 2
  funext e
  by_cases he : e.1 = k'
  · simp [he, h]
  · simp [he]

theorem addEnvironment_requirements {σ : Type} (x : Externals σ) (o : Options σ)
    (e : EnvironmentConfig) : (addEnvironment x o e).Requirements = o.Requirements := by
  unfold addEnvironment
  simp only []
  split <;> rfl

theorem foldl_addEnvironment_requirements {σ : Type} (x : Externals σ)
    (es : List EnvironmentConfig) (o : Options σ) :
    (es.foldl (addEnvironment x) o).Requirements = o.Requirements := by
  induction es generalizing o with
  | nil => rfl
  | cons e rest ih => rw [List.foldl_cons, ih, addEnvironment_requirements]

/-- The name one iteration of the loop records. -/
theorem addEnvironment_names {σ : Type} (x : Externals σ) (o : Options σ)
    (e : EnvironmentConfig) :
    (addEnvironment x o e).EnvironmentNames =
      o.EnvironmentNames.set (envNamespace e) (x.titleCaser e.Key) := by
  unfold addEnvironment envNamespace
  simp only []
  split <;> rfl

/-- The URL one iteration of the loop records under the environment's namespace. -/
theorem addEnvironment_url_same {σ : Type} (x : Externals σ) (o : Options σ)
    (e : EnvironmentConfig) :
    (addEnvironment x o e).EnvironmentURLs.get? (envNamespace e) =
      some (x.EnvironmentGitURL o.Requirements e.Key) := by
  unfold addEnvironment
  simp only []
  have hns : (if e.Namespace = "" then (if e.Key ≠ "dev" then "jx-" ++ e.Key else "jx")
      else e.Namespace) = envNamespace e := rfl
  rw [hns]
  split
  · by_cases hd : envNamespace e = "dev"
    · rw [hd]
      exact GoMap.get?_set_same _ _ _
    · rw [GoMap.get?_set_other _ _ _ _ hd]
      exact GoMap.get?_set_same _ _ _
  · exact GoMap.get?_set_same _ _ _

/-- One iteration of the loop leaves the URLs of the other namespaces alone. -/
theorem addEnvironment_url_other {σ : Type} (x : Externals σ) (o : Options σ)
    (e : EnvironmentConfig) (k : String) (h1 : envNamespace e ≠ k)
    (h2 : ¬ (e.Key = "dev" ∧ k = "dev")) :
    (addEnvironment x o e).EnvironmentURLs.get? k = o.EnvironmentURLs.get? k := by
  unfold addEnvironment
  simp only []
  have hns : (if e.Namespace = "" then (if e.Key ≠ "dev" then "jx-" ++ e.Key else "jx")
      else e.Namespace) = envNamespace e := rfl
  rw [hns]
  split
  · rename_i hkey
    have hk : k ≠ "dev" := fun hk => h2 ⟨hkey, hk⟩
    rw [GoMap.get?_set_other _ _ _ _ hk]
    exact GoMap.get?_set_other _ _ _ _ (fun h => h1 h.symm)
  · exact GoMap.get?_set_other _ _ _ _ (fun h => h1 h.symm)

/-- The entries of a namespace survive the later iterations that record other
namespaces. -/
theorem foldl_addEnvironment_keeps {σ : Type} (x : Externals σ) (post : List EnvironmentConfig)
    (o : Options σ) (k : String)
    (h : ∀ e' ∈ post, envNamespace e' ≠ k ∧ ¬ (e'.Key = "dev" ∧ k = "dev")) :
    (post.foldl (addEnvironment x) o).EnvironmentNames.get? k = o.EnvironmentNames.get? k ∧
      (post.foldl (addEnvironment x) o).EnvironmentURLs.get? k = o.EnvironmentURLs.get? k := by
  induction post generalizing o with
  | nil => exact ⟨rfl, rfl⟩
  | cons e rest ih =>
    have he := h e (by simp)
    have hrest := ih (addEnvironment x o e) (fun e' he' => h e' (by simp [he']))
    rw [List.foldl_cons, hrest.1, hrest.2, addEnvironment_names,
      GoMap.get?_set_other _ _ _ _ (fun hk => he.1 hk.symm),
      addEnvironment_url_other x o e k he.1 he.2]
    exact ⟨rfl, rfl⟩

/-- C11, as amended. After the loop of `Run` over the declared environments,
for an entry `e` that no later entry overwrites (no later entry has the same
namespace, nor the key `dev` when the namespace of `e` is `dev`),
`getEnvForNamespace` of the namespace of `e` (its own, or the default of
lines 114-120) has the title-cased key of `e` as name, or the title-cased
namespace without `jx-` when that is empty, and the git URL of `e` as url, or
the URL recorded for `dev` when that is empty. -/
theorem getEnvForNamespace_declared {σ : Type} (x : Externals σ) (o : Options σ)
    (pre post : List EnvironmentConfig) (e : EnvironmentConfig)
    (hreq : o.Requirements.Environments = pre ++ e :: post)
    (hlast : ∀ e' ∈ post, envNamespace e' ≠ envNamespace e ∧
      ¬ (e'.Key = "dev" ∧ envNamespace e = "dev")) :
    getEnvForNamespace x.titleCaser (o.Requirements.Environments.foldl (addEnvironment x) o)
        (envNamespace e) =
      { name := if x.titleCaser e.Key = "" then
            x.titleCaser (stringsTrimLeading (envNamespace e) "jx-")
          else x.titleCaser e.Key
        url := if x.EnvironmentGitURL o.Requirements e.Key = "" then
            (o.Requirements.Environments.foldl (addEnvironment x) o).EnvironmentURLs.getD "dev"
          else x.EnvironmentGitURL o.Requirements e.Key } := by
  have hkeep := foldl_addEnvironment_keeps x post
    (addEnvironment x (pre.foldl (addEnvironment x) o) e) (envNamespace e) hlast
  have hfold : o.Requirements.Environments.foldl (addEnvironment x) o =
      post.foldl (addEnvironment x) (addEnvironment x (pre.foldl (addEnvironment x) o) e) := by
    rw [hreq, List.foldl_append, List.foldl_cons]
  have hname : (o.Requirements.Environments.foldl (addEnvironment x) o).EnvironmentNames.getD
      (envNamespace e) = x.titleCaser e.Key := by
    unfold GoMap.getD
    rw [hfold, hkeep.1, addEnvironment_names, GoMap.get?_set_same]
    rfl
  have hurl : (o.Requirements.Environments.foldl (addEnvironment x) o).EnvironmentURLs.getD
      (envNamespace e) = x.EnvironmentGitURL o.Requirements e.Key := by
    unfold GoMap.getD
    rw [hfold, hkeep.2, addEnvironment_url_same, foldl_addEnvironment_requirements]
    rfl
  unfold getEnvForNamespace
  simp only [hname, hurl]

/-- The staging environment of the sample requirements: it has no git URL of
its own, so its url is the one recorded for `dev`. -/
theorem getEnvForNamespace_declared_witness :
    getEnvForNamespace devExternals.titleCaser
        ((emptyOptions sampleRequirements).Requirements.Environments.foldl
          (addEnvironment devExternals) (emptyOptions sampleRequirements))
        (envNamespace { Key := "staging", Namespace := "jx-staging" }) =
      { name := "Staging", url := "https://github.com/jstrachan/jx-demo-gke2-dev.git" } :=
  (getEnvForNamespace_declared devExternals (emptyOptions sampleRequirements)
    [{ Key := "dev", Namespace := "" }] [] { Key := "staging", Namespace := "jx-staging" }
    rfl (by simp)).trans (by decide)

/-- C11, the claim as stated fails: the staging entry has the empty git URL
and resolves to the URL of `dev`; of two entries with the namespace `apps` the
first resolves to the key of the second; an entry declared with an empty
namespace is recorded under `jx-` and its key, not under the empty namespace. -/
theorem getEnvForNamespace_declared_fallbacks :
    devExternals.EnvironmentGitURL sampleRequirements "staging" = "" ∧
      (getEnvForNamespace capitalise
        (sampleRequirements.Environments.foldl (addEnvironment devExternals)
          (emptyOptions sampleRequirements)) "jx-staging") =
        { name := "Staging", url := "https://github.com/jstrachan/jx-demo-gke2-dev.git" } ∧
      (getEnvForNamespace capitalise
        (sharedNamespaceRequirements.Environments.foldl (addEnvironment sampleExternals)
          (emptyOptions sharedNamespaceRequirements)) "apps").name = "Production" ∧
      capitalise "staging" = "Staging" ∧
      (getEnvForNamespace capitalise
        (sampleRequirements.Environments.foldl (addEnvironment devExternals)
          (emptyOptions sampleRequirements)) "").name = "" ∧
      capitalise "dev" = "Dev" := by
  decide

/-- C12. Environment resolver, fallback: for a namespace without an entry in
the two environment maps, `getEnvForNamespace` (a total function) returns the
title-cased namespace without its `jx-` prefix as name and the URL recorded
for `dev` as url. -/
theorem getEnvForNamespace_fallback {σ : Type} (titleCaser : String → String) (o : Options σ)
    (ns : String) (hname : o.EnvironmentNames.get? ns = none)
    (hurl : o.EnvironmentURLs.get? ns = none) :
    getEnvForNamespace titleCaser o ns =
      { name := titleCaser (stringsTrimLeading ns "jx-")
        url := o.EnvironmentURLs.getD "dev" } := by
  unfold getEnvForNamespace
  simp [GoMap.getD, hname, hurl]

/-- The namespace `jx-staging`, absent from the maps of the sample options. -/
theorem getEnvForNamespace_fallback_witness :
    getEnvForNamespace capitalise (sampleOptions 100 sampleRelease) "jx-staging" =
      { name := capitalise (stringsTrimLeading "jx-staging" "jx-")
        url := (sampleOptions 100 sampleRelease).EnvironmentURLs.getD "dev" } ∧
    capitalise (stringsTrimLeading "jx-staging" "jx-") = "Staging" ∧
    (sampleOptions 100 sampleRelease).EnvironmentURLs.getD "dev" =
      "https://github.com/jstrachan/jx-demo-gke2-dev.git" :=
  ⟨getEnvForNamespace_fallback capitalise (sampleOptions 100 sampleRelease) "jx-staging"
    (by decide) (by decide), by decide, by decide⟩

/-! ## The client registry -/

/-- A cached client is returned as it is: no factory call, nothing changes. -/
theorem CreateSCMClientForServer_hit {σ : Type} (x : Externals σ) (owner server gitKind : String)
    (s : Options σ × World σ) (c : Client σ) (h : s.1.SCMClients.get? server = some c) :
    CreateSCMClientForServer x owner server gitKind s = (.ok c, s) := by
  unfold CreateSCMClientForServer
  rw [h]

/-- A call leaves the cache entries of the other servers alone. -/
theorem CreateSCMClientForServer_other {σ : Type} (x : Externals σ)
    (owner server gitKind : String) (s : Options σ × World σ) (other : String)
    (h : other ≠ server) :
    (CreateSCMClientForServer x owner server gitKind s).2.1.SCMClients.get? other =
      s.1.SCMClients.get? other := by
  unfold CreateSCMClientForServer
  cases s.1.SCMClients.get? server with
  | some c => rfl
  | none =>
    simp only []
    by_cases hs : server = ""
    · rw [if_pos hs]
    · rw [if_neg hs]
      generalize (if gitKind = "" then x.SaasGitKind server else gitKind) = kind
      by_cases hk : kind = ""
      · rw [if_pos hk]
      · rw [if_neg hk]
        cases x.NewScmClient kind server s.1.TestGitToken with
        | error e => rfl
        | ok c => exact GoMap.get?_set_other _ _ _ _ h

/-- The client a call returns is the one the cache then holds for the server. -/
theorem CreateSCMClientForServer_registers {σ : Type} (x : Externals σ)
    (owner server gitKind : String) (s s' : Options σ × World σ) (c : Client σ)
    (h : CreateSCMClientForServer x owner server gitKind s = (.ok c, s')) :
    s'.1.SCMClients.get? server = some c := by
  unfold CreateSCMClientForServer at h
  cases hget : s.1.SCMClients.get? server with
  | some c' =>
    rw [hget] at h
    simp only [Prod.mk.injEq, Except.ok.injEq] at h
    rw [← h.2, hget, h.1]
  | none =>
    rw [hget] at h
    simp only [] at h
    by_cases hs : server = ""
    · rw [if_pos hs] at h
      simp at h
    · rw [if_neg hs] at h
      generalize (if gitKind = "" then x.SaasGitKind server else gitKind) = kind at h
      by_cases hk : kind = ""
      · rw [if_pos hk] at h
        simp at h
      · rw [if_neg hk] at h
        cases hnew : x.NewScmClient kind server s.1.TestGitToken with
        | error e => rw [hnew] at h; simp at h
        | ok c' =>
          rw [hnew] at h
          simp only [Prod.mk.injEq, Except.ok.injEq] at h
          rw [← h.2, ← h.1]
          exact GoMap.get?_set_same _ _ _

/-- A cache entry survives every call, for whatever server. -/
theorem CreateSCMClientForServer_keeps {σ : Type} (x : Externals σ)
    (owner server gitKind : String) (s : Options σ × World σ) (held : String) (c : Client σ)
    (h : s.1.SCMClients.get? held = some c) :
    (CreateSCMClientForServer x owner server gitKind s).2.1.SCMClients.get? held = some c := by
  by_cases hs : held = server
  · subst hs
    rw [CreateSCMClientForServer_hit x owner held gitKind s c h]
    exact h
  · rw [CreateSCMClientForServer_other x owner server gitKind s held hs]
    exact h

/-- A cache entry survives every sequence of calls. -/
theorem afterClientRequests_keeps {σ : Type} (x : Externals σ)
    (requests : List (String × String × String)) (s : Options σ × World σ) (held : String)
    (c : Client σ) (h : s.1.SCMClients.get? held = some c) :
    (afterClientRequests x requests s).1.SCMClients.get? held = some c := by
  unfold afterClientRequests
  induction requests generalizing s with
  | nil => exact h
  | cons r rest ih =>
    rw [List.foldl_cons]
    exact ih _ (CreateSCMClientForServer_keeps x r.1 r.2.1 r.2.2 s held c h)

/-- C13. The client registry is keyed by the server only: the client a
successful call returns is cached under the server; once a server has a
cached client, after any sequence of further calls a call for that server,
with any owner and any git kind, returns that client, invokes no factory and
leaves options and world as they are; and a call changes the cache entry of
no other server. -/
theorem CreateSCMClientForServer_keyed_by_server {σ : Type} (x : Externals σ)
    (owner server gitKind : String) (s : Options σ × World σ) :
    (∀ c s', CreateSCMClientForServer x owner server gitKind s = (.ok c, s') →
      s'.1.SCMClients.get? server = some c) ∧
    (∀ c, s.1.SCMClients.get? server = some c →
      ∀ (requests : List (String × String × String)) (owner' gitKind' : String),
        CreateSCMClientForServer x owner' server gitKind' (afterClientRequests x requests s) =
          (.ok c, afterClientRequests x requests s)) ∧
    (∀ other, other ≠ server →
      (CreateSCMClientForServer x owner server gitKind s).2.1.SCMClients.get? other =
        s.1.SCMClients.get? other) := by
  refine ⟨fun c s' h => CreateSCMClientForServer_registers x owner server gitKind s s' c h,
    fun c h requests owner' gitKind' => ?_,
    fun other h => CreateSCMClientForServer_other x owner server gitKind s other h⟩
  exact CreateSCMClientForServer_hit x owner' server gitKind' _ c
    (afterClientRequests_keeps x requests s server c h)

/-- The client pre-registered for `https://fake.com` in the sample options:
after a first call for another owner and a call for `https://github.com`, a
call with another owner and another kind makes no factory call. -/
theorem CreateSCMClientForServer_keyed_by_server_witness :
    (CreateSCMClientForServer sampleExternals "otherOwner" "https://fake.com" "github"
      (afterClientRequests sampleExternals
        [("fakeOwner", "https://fake.com", ""), ("fakeOwner", "https://github.com", "")]
        (sampleOptions 100 sampleRelease, freshWorld (sampleData [])))).2 =
      afterClientRequests sampleExternals
        [("fakeOwner", "https://fake.com", ""), ("fakeOwner", "https://github.com", "")]
        (sampleOptions 100 sampleRelease, freshWorld (sampleData [])) ∧
    (afterClientRequests sampleExternals
        [("fakeOwner", "https://fake.com", ""), ("fakeOwner", "https://github.com", "")]
        (sampleOptions 100 sampleRelease, freshWorld (sampleData []))).2.factoryCalls =
      [("github", "https://github.com", "faketoken")] :=
  ⟨congrArg Prod.snd
    ((CreateSCMClientForServer_keyed_by_server sampleExternals "fakeOwner" "https://fake.com"
      "fake" (sampleOptions 100 sampleRelease, freshWorld (sampleData []))).2.1 fakeClient rfl
      [("fakeOwner", "https://fake.com", ""), ("fakeOwner", "https://github.com", "")]
      "otherOwner" "github"),
   by decide⟩

/-! ## Error handling of the driver -/

/-- A loop stops at the first iteration that returns an error. -/
theorem rangeLoop_stops {α S : Type} (a : α) (rest : List α)
    (body : α → S → Option Error × S) (s s' : S) (err : Error)
    (h : body a s = (some err, s')) : rangeLoop (a :: rest) body s = (some err, s') := by
  unfold rangeLoop
  rw [h]

/-- Without groups, a release that is not skipped and for which no client can
be created makes the loop body return the error, whatever `FailOnError` is. -/
theorem runRelease_client_error {σ : Type} (x : Externals σ) (c : ClusterConfig)
    (gitServer ns : String) (release : ReleaseInfo) (s s' : Options σ × World σ) (err : Error)
    (hskip : skipRelease s.1.DeployCutoff release = false)
    (hclient : CreateSCMClientForServer x c.EnvironmentGitOwner gitServer c.GitKind s =
      (.error err, s')) :
    runRelease x c gitServer ns release s =
      (some (Wrapf err ("failed to create scm client for owner " ++ c.EnvironmentGitOwner)),
        s') := by
  unfold runRelease
  simp only [hskip, hclient, Bool.false_eq_true, if_false]

/-- C14, on the code. With fail-on-error disabled and a git server whose
provider kind cannot be determined, `Run` without groups returns the error of
`CreateSCMClientForServer`; with the group declared it logs the failure and
returns nil. -/
theorem client_error_fails_run_without_groups :
    (unknownHostOptions []).FailOnError = false ∧
      (CreateSCMClientForServer sampleExternals "fakeOwner" "https://git.example.org" ""
        (unknownHostOptions [], freshWorld (sampleData []))).1.toOption.isNone = true ∧
      (Run sampleExternals (unknownHostInputs [])
        (unknownHostOptions [], freshWorld (sampleData []))).1 =
        some { msg := "failed to create scm client for owner fakeOwner: " ++
                 "no git provider kind for owner fakeOwner", notFound := false } ∧
      (Run sampleExternals (unknownHostInputs [unknownHostGroup])
        (unknownHostOptions [unknownHostGroup], freshWorld (sampleData []))).1 = none ∧
      (Run sampleExternals (unknownHostInputs [unknownHostGroup])
        (unknownHostOptions [unknownHostGroup], freshWorld (sampleData []))).2.2.logs =
        [LogEntry.Warnf ("failed to update status for repository fakeOwner/fakeRepo : " ++
          "failed to create scm client for repository fakeOwner/fakeRepo: " ++
          "no git provider kind for owner fakeOwner")] := by
  decide

/-- C15, on the code. With fail-on-error disabled and the release in the
namespaces `jx-staging` and `jx-production`, on a provider whose `Create`
fails for `Staging`: with the group declared, `Run` returns nil after the
calls for `Staging` and makes no call for `Production`; without groups the
release in `jx-production` is reconciled after the failure. -/
theorem provider_error_aborts_later_namespaces :
    (twoNamespaceOptions [sampleGroup] sampleRelease).FailOnError = false ∧
      (runGroups sampleExternals
        (twoNamespaceOptions [sampleGroup] sampleRelease, freshWorld (sampleData []))).1 = none ∧
      (runGroups sampleExternals
        (twoNamespaceOptions [sampleGroup] sampleRelease,
          freshWorld (sampleData []))).2.2.calls =
        [Call.List "fakeOwner/fakeRepo",
          Call.Create "fakeOwner/fakeRepo"
            (newDeploymentInput "v0.0.2" "Staging" "fakeOwner/fakeRepo")] ∧
      (runNoGroups sampleExternals
        (twoNamespaceOptions [] sampleRelease, freshWorld (sampleData []))).2.2.calls =
        [Call.List "fakeOwner/fakeRepo",
          Call.Create "fakeOwner/fakeRepo"
            (newDeploymentInput "v0.0.2" "Staging" "fakeOwner/fakeRepo"),
          Call.List "fakeOwner/fakeRepo",
          Call.Create "fakeOwner/fakeRepo"
            (newDeploymentInput "v0.0.2" "Production" "fakeOwner/fakeRepo"),
          Call.CreateStatus "fakeOwner/fakeRepo" "deployment-1"
            (deploymentStatusInput true productionEnv sampleRelease)] := by
  decide

/-! ## Searching, creating, and the status entry -/

/-- C16. `FindExistingDeploymentInEnvironment`, when `List` does not fail
hard, returns without error the first deployment of the list whose name is
the short name of the repository and whose environment is the given one:
every deployment before it fails one of the two tests; it returns no
deployment exactly when none passes both; and the test does not read the ref. -/
theorem FindExistingDeploymentInEnvironment_first_match {σ : Type} (svc : DeploymentService σ)
    (full environment : String) (w : World σ)
    (hlist : ∀ err, (svc.List full w.provider).1.2 = some err → err.notFound = true) :
    (∃ found, (FindExistingDeploymentInEnvironment svc full environment w).1 = .ok found ∧
      (∀ d, found = some d →
        d.Name = (scmSplit full).2 ∧ d.Environment = environment ∧
        ∃ before after, (svc.List full w.provider).1.1 = before ++ d :: after ∧
          ∀ b ∈ before, ¬ (b.Name = (scmSplit full).2 ∧ b.Environment = environment)) ∧
      (found = none ↔ ∀ d ∈ (svc.List full w.provider).1.1,
        ¬ (d.Name = (scmSplit full).2 ∧ d.Environment = environment))) ∧
    (∀ (d : Deployment) (ref : String),
      matchesDeployment full environment { d with Ref := ref } =
        matchesDeployment full environment d) := by
  refine ⟨⟨_, find_result_ok svc full environment w hlist, ?_, ?_⟩, fun d ref => rfl⟩
  · intro d hd
    rw [List.find?_eq_some] at hd
    obtain ⟨hm, before, after, hsplit, hbefore⟩ := hd
    simp only [matchesDeployment, Bool.and_eq_true, beq_iff_eq] at hm
    refine ⟨hm.1, hm.2, before, after, hsplit, fun b hb hboth => ?_⟩
    have := hbefore b hb
    simp [matchesDeployment, hboth.1, hboth.2] at this
  · rw [List.find?_eq_none]
    constructor
    · intro h d hd hboth
      exact h d hd (by simp [matchesDeployment, hboth.1, hboth.2])
    · intro h d hd hm
      simp only [matchesDeployment, Bool.and_eq_true, beq_iff_eq] at hm
      exact h d hd hm

/-- Of two production deployments of `fakeRepo` the first is found, though the
second has the wanted ref. -/
theorem FindExistingDeploymentInEnvironment_first_match_witness :
    (FindExistingDeploymentInEnvironment fakeDeployments "fakeOwner/fakeRepo" "Production"
      (freshWorld (sampleData [sampleDeployment "v0.0.1",
        { sampleDeployment "v0.0.2" with ID := "deployment-2" }]))).1.toOption =
      some (some (sampleDeployment "v0.0.1")) ∧
    ∃ found, (FindExistingDeploymentInEnvironment fakeDeployments "fakeOwner/fakeRepo"
      "Production" (freshWorld (sampleData [sampleDeployment "v0.0.1",
        { sampleDeployment "v0.0.2" with ID := "deployment-2" }]))).1 = .ok found ∧
      (found = none ↔ ∀ d ∈ (fakeDeployments.List "fakeOwner/fakeRepo"
          (freshWorld (sampleData [sampleDeployment "v0.0.1",
            { sampleDeployment "v0.0.2" with ID := "deployment-2" }])).provider).1.1,
        ¬ (d.Name = (scmSplit "fakeOwner/fakeRepo").2 ∧ d.Environment = "Production")) :=
  ⟨by decide,
    let h := (FindExistingDeploymentInEnvironment_first_match fakeDeployments
      "fakeOwner/fakeRepo" "Production"
      (freshWorld (sampleData [sampleDeployment "v0.0.1",
        { sampleDeployment "v0.0.2" with ID := "deployment-2" }]))
      (fun _ h => by cases h)).1
    ⟨h.choose, h.choose_spec.1, h.choose_spec.2.2⟩⟩

/-- The calls of `reconcile`: the calls made before, then calls on the resolved
repository, each a `List`, a `Create`, or a `CreateStatus` with the status
input of lines 304-312. -/
theorem reconcile_calls {σ : Type} (AutoInactive : Bool) (scmClient : Client σ)
    (env : environment) (provider full : String) (release : ReleaseInfo) (w : World σ) :
    ∃ new, (reconcile AutoInactive scmClient env provider full release w).2.calls =
        w.calls ++ new ∧
      ∀ c ∈ new, c = Call.List full ∨ (∃ input, c = Call.Create full input) ∨
        ∃ id, c = Call.CreateStatus full id (deploymentStatusInput AutoInactive env release) := by
  unfold reconcile
  cases hd : scmClient.Deployments with
  | none => exact ⟨[], by simp, by simp⟩
  | some svc =>
    simp only []
    have heff := find_effects svc full env.name w
    rcases hF : FindExistingDeploymentInEnvironment svc full env.name w with ⟨res, w1⟩
    rw [hF] at heff
    cases res with
    | error e => exact ⟨[Call.List full], heff.2, by simp⟩
    | ok found =>
      cases found with
      | none =>
        simp only []
        have hce := create_effects svc ("v" ++ release.Version) env.name full w1
        rcases hC : CreateNewDeployment svc ("v" ++ release.Version) env.name full w1
          with ⟨cres, w2⟩
        rw [hC] at hce
        cases cres with
        | error e =>
          refine ⟨[Call.List full, Call.Create full
            (newDeploymentInput ("v" ++ release.Version) env.name full)], ?_, ?_⟩
          · show w2.calls = _
            rw [hce.2.1, heff.2]
            simp
          · intro c hc
            simp only [List.mem_cons, List.mem_singleton, List.not_mem_nil, or_false] at hc
            rcases hc with rfl | rfl
            · exact Or.inl rfl
            · exact Or.inr (Or.inl ⟨_, rfl⟩)
        | ok d =>
          have hcs := createStatus_effects AutoInactive svc env full ("v" ++ release.Version)
            release d w2
          refine ⟨[Call.List full, Call.Create full
            (newDeploymentInput ("v" ++ release.Version) env.name full),
            Call.CreateStatus full d.ID (deploymentStatusInput AutoInactive env release)],
            ?_, ?_⟩
          · show (createStatus AutoInactive svc env full ("v" ++ release.Version) release d
              w2).2.calls = _
            rw [hcs.2.1, hce.2.1, heff.2]
            simp
          · intro c hc
            simp only [List.mem_cons, List.mem_singleton, List.not_mem_nil, or_false] at hc
            rcases hc with rfl | rfl | rfl
            · exact Or.inl rfl
            · exact Or.inr (Or.inl ⟨_, rfl⟩)
            · exact Or.inr (Or.inr ⟨_, rfl⟩)
      | some d =>
        simp only []
        by_cases href : "v" ++ release.Version = d.Ref
        · refine ⟨[Call.List full], ?_, by simp⟩
          simp only [href, if_true, World.log_calls]
          exact heff.2
        · have hcs := createStatus_effects AutoInactive svc env full ("v" ++ release.Version)
            release d w1
          refine ⟨[Call.List full,
            Call.CreateStatus full d.ID (deploymentStatusInput AutoInactive env release)],
            ?_, ?_⟩
          · simp only [href, if_false]
            rw [hcs.2.1, heff.2]
            simp
          · intro c hc
            simp only [List.mem_cons, List.mem_singleton, List.not_mem_nil, or_false] at hc
            rcases hc with rfl | rfl
            · exact Or.inl rfl
            · exact Or.inr (Or.inr ⟨_, rfl⟩)

/-- C18. The status entry: the calls of `updateStatus` extend the calls made
before, and every `CreateStatus` among the new ones carries state `success`,
the description `Deployment ` followed by the version without one leading
`v`, the name and the URL of the environment, the application URL and the
logs URL of the release as target and log links, and the `AutoInactive` flag. -/
theorem updateStatus_status_input {σ : Type} (parse : String → Option GitRepository)
    (AutoInactive : Bool) (scmClient : Client σ) (env : environment)
    (provider owner repoName : String) (release : ReleaseInfo) (w : World σ) :
    (∃ new, (updateStatus parse AutoInactive scmClient env provider owner repoName release
        w).2.calls = w.calls ++ new ∧
      ∀ repo id input, Call.CreateStatus repo id input ∈ new →
        input =
          { State := "success"
            TargetLink := release.ApplicationURL
            LogLink := release.LogsURL
            Description := "Deployment " ++ stringsTrimLeading release.Version "v"
            Environment := env.name
            EnvironmentLink := env.url
            AutoInactive := AutoInactive }) ∧
    stringsTrimLeading "v0.0.2" "v" = "0.0.2" ∧ stringsTrimLeading "vv1" "v" = "v1" ∧
    stringsTrimLeading "0.0.2" "v" = "0.0.2" := by
  refine ⟨?_, by decide, by decide, by decide⟩
  unfold updateStatus
  by_cases hv : release.Version = ""
  · exact ⟨[], by simp [hv], by simp⟩
  · rw [if_neg hv]
    obtain ⟨new, hcalls, hnew⟩ := reconcile_calls AutoInactive scmClient env provider
      (resolveFullRepoName parse provider owner repoName release.Sources) release
      { w with logs := w.logs ++ sourceWarnings parse release.Sources }
    refine ⟨new, hcalls, fun repo id input hin => ?_⟩
    rcases hnew _ hin with h | ⟨i, h⟩ | ⟨i, h⟩
    · cases h
    · cases h
    · simp only [Call.CreateStatus.injEq] at h
      rw [h.2.2]
      rfl

/-- C19. `CreateNewDeployment` makes one `Create` call, whose input has the
given ref, the task `deploy`, the given environment, the description
`release <short repository name> for version <ref without its leading v>`,
and is a production environment exactly when the lower-cased environment name
contains `prod`: `Production` and `pre-prod` are, `Staging` is not. -/
theorem CreateNewDeployment_input {σ : Type} (svc : DeploymentService σ)
    (ref environment full : String) (w : World σ) :
    (CreateNewDeployment svc ref environment full w).2.calls =
      w.calls ++ [Call.Create full
        { Ref := ref
          Task := "deploy"
          Environment := environment
          Description := "release " ++ (scmSplit full).2 ++ " for version " ++
            stringsTrimLeading ref "v"
          RequiredContexts := []
          AutoMerge := false
          TransientEnvironment := false
          ProductionEnvironment := stringsContains (stringsToLower environment) "prod" }] ∧
    (newDeploymentInput "v0.0.2" "Production" "fakeOwner/fakeRepo").ProductionEnvironment = true ∧
    (newDeploymentInput "v0.0.2" "pre-prod" "fakeOwner/fakeRepo").ProductionEnvironment = true ∧
    (newDeploymentInput "v0.0.2" "Staging" "fakeOwner/fakeRepo").ProductionEnvironment = false ∧
    (newDeploymentInput "v0.0.2" "Production" "fakeOwner/fakeRepo").Description =
      "release fakeRepo for version 0.0.2" :=
  ⟨(create_effects svc ref environment full w).2.1, by decide, by decide, by decide, by decide⟩

/-! ## The deployment record after a version change -/

/-- The in-memory `CreateStatus` and `List` leave the deployments as they are. -/
theorem fakeDeployments_keeps_deployments (repo id : String) (input : DeploymentStatusInput)
    (p : FakeData) :
    (fakeDeployments.CreateStatus repo id input p).2.Deployments = p.Deployments ∧
      (fakeDeployments.List repo p).2 = p :=
  ⟨rfl, rfl⟩

/-- C17, on the code. The test case of a deployment at `v0.0.1` and the release
0.0.2: after `Run`, which returns nil and creates one status on
`deployment-1`, the provider still lists that deployment with the ref `v0.0.1`
and the description of version 0.0.1. -/
theorem version_change_keeps_old_ref :
    (Run sampleExternals (sampleInputs sampleRelease)
      (sampleOptions 100 sampleRelease,
        freshWorld (sampleData [sampleDeployment "v0.0.1"]))).1 = none ∧
    (Run sampleExternals (sampleInputs sampleRelease)
      (sampleOptions 100 sampleRelease,
        freshWorld (sampleData [sampleDeployment "v0.0.1"]))).2.2.calls =
      [Call.List "fakeOwner/fakeRepo",
        Call.CreateStatus "fakeOwner/fakeRepo" "deployment-1"
          (deploymentStatusInput true productionEnv sampleRelease)] ∧
    (Run sampleExternals (sampleInputs sampleRelease)
      (sampleOptions 100 sampleRelease,
        freshWorld (sampleData [sampleDeployment "v0.0.1"]))).2.2.provider.Deployments =
      [("fakeOwner/fakeRepo", [sampleDeployment "v0.0.1"])] ∧
    (sampleDeployment "v0.0.1").Ref ≠ "v" ++ sampleRelease.Version ∧
    (sampleDeployment "v0.0.1").Description = "release nodey560 for version 0.0.1" := by
  decide

/-- C20, on the code. On the in-memory provider, reconciling the release 0.0.2
with production a second time after a first run that found the deployment at
`v0.0.1` creates a second status on `deployment-1`; after a first run that
found no deployment, or one at `v0.0.2`, the second run changes nothing. -/
theorem rerun_after_version_change_adds_status :
    (reconcileAgain (freshWorld (sampleData [sampleDeployment "v0.0.1"]))).provider.DeploymentStatus
        = [("fakeOwner/fakeRepo/deployment-1",
            [{ ID := "status-1", State := "success", Description := "Deployment 0.0.2",
               Environment := "Production",
               EnvironmentLink := "https://github.com/jstrachan/jx-demo-gke2-dev.git" }])] ∧
    (reconcileAgain (reconcileAgain
      (freshWorld (sampleData [sampleDeployment "v0.0.1"])))).provider.DeploymentStatus
        = [("fakeOwner/fakeRepo/deployment-1",
            [{ ID := "status-1", State := "success", Description := "Deployment 0.0.2",
               Environment := "Production",
               EnvironmentLink := "https://github.com/jstrachan/jx-demo-gke2-dev.git" },
             { ID := "status-2", State := "success", Description := "Deployment 0.0.2",
               Environment := "Production",
               EnvironmentLink := "https://github.com/jstrachan/jx-demo-gke2-dev.git" }])] ∧
    (reconcileAgain (reconcileAgain (freshWorld (sampleData [])))).provider =
      (reconcileAgain (freshWorld (sampleData []))).provider ∧
    (reconcileAgain (reconcileAgain
      (freshWorld (sampleData [sampleDeployment "v0.0.2"])))).provider =
      (reconcileAgain (freshWorld (sampleData [sampleDeployment "v0.0.2"]))).provider := by
  decide

end Status
